import Mathlib

/-!
# Verification of the Netlify edge proxy handler

Shallow embedding of `src/netlify/edge-functions/proxy-handler.ts`.
All string processing is modelled over `List Char` with structurally
recursive functions so that every definition evaluates inside the kernel.
JS string primitives (`startsWith`, `includes`, `substring`, template
interpolation, `encodeURIComponent`, …) are modelled from ECMAScript
semantics; the WHATWG `URL` constructor is modelled for the constructs the
handler exercises (scheme/host/path/query/fragment splitting, relative
resolution against a base, dot-segment removal). Regex replacement passes
are modelled as explicit text scanners that follow the concrete patterns in
the source, including case-insensitivity, lazy quantifier behaviour and
capture-group substitution.
-/

namespace NetlifyProxy

/-! ## Character and JS string primitives -/

/-- The double-quote character. -/
def quotD : Char := Char.ofNat 34

/-- The single-quote (apostrophe) character. -/
def quotS : Char := Char.ofNat 39

/-- The backslash character. -/
def bslC : Char := Char.ofNat 92

/-- The newline character. -/
def nlC : Char := Char.ofNat 10

/-- The carriage-return character. -/
def crC : Char := Char.ofNat 13

/-- ECMAScript `String.prototype.startsWith`. -/
def jsStartsWith (s pre : String) : Bool :=
  pre.data.isPrefixOf s.data

/-- ECMAScript `String.prototype.includes` for a single character
(used for `targetUrlString.includes('?')`). -/
def jsIncludesChar (s : String) (c : Char) : Bool :=
  s.data.contains c

/-- ECMAScript `String.prototype.substring(n)` (drop the first `n` code units). -/
def jsDrop (s : String) (n : Nat) : String :=
  ⟨s.data.drop n⟩

/-- Substring containment test, ECMAScript `String.prototype.includes(pat)`
(case-sensitive). -/
def containsSubAux (pat : List Char) : List Char → Bool
  | [] => pat.isPrefixOf []
  | c :: t => pat.isPrefixOf (c :: t) || containsSubAux pat t

/-- `s.includes(pat)` on strings. -/
def containsSub (s pat : String) : Bool :=
  containsSubAux pat.data s.data

/-- All start indices at which `pat` occurs in the character list. -/
def occIdxsAux (pat : List Char) : List Char → Nat → List Nat
  | [], i => if pat.isPrefixOf [] then [i] else []
  | c :: t, i =>
    (if pat.isPrefixOf (c :: t) then [i] else []) ++ occIdxsAux pat t (i + 1)

/-- Last index at which `pat` occurs, accumulated strictly (the index is
re-forced each step so the kernel evaluates this iteratively). -/
def lastIdxAux (pat : List Char) : List Char → Nat → Option Nat → Option Nat
  | [], i, best => if pat.isPrefixOf [] then some i else best
  | c :: t, i, best =>
    match i, pat.isPrefixOf (c :: t) with
    | 0, true => lastIdxAux pat t 1 (some 0)
    | j + 1, true => lastIdxAux pat t (j + 2) (some (j + 1))
    | 0, false => lastIdxAux pat t 1 best
    | j + 1, false => lastIdxAux pat t (j + 2) best

/-- ECMAScript `String.prototype.lastIndexOf(pat)`, `none` for `-1`. -/
def jsLastIndexOf (s pat : String) : Option Nat :=
  lastIdxAux pat.data s.data 0 none

/-- Number of (possibly overlapping) occurrences of `pat` in `s`. -/
def countSub (s pat : String) : Nat :=
  (occIdxsAux pat.data s.data 0).length

/-- ECMAScript `str.replace(/\/$/, '')`: remove one trailing slash. -/
def stripTrailingSlash (s : String) : String :=
  if s.data.getLast? = some '/' then ⟨s.data.dropLast⟩ else s

/-- ASCII lower-casing of a whole string (JS host/scheme normalisation). -/
def lowerStr (s : String) : String :=
  ⟨s.data.map Char.toLower⟩

/-- Case-insensitive character comparison (regex `i` flag). -/
def eqCI (a b : Char) : Bool :=
  a.toLower == b.toLower

/-- The pathname directory used by the rewriter:
`p.substring(0, p.lastIndexOf('/') + 1)` (source lines 276 and 399-400). -/
def dirOf (p : String) : String :=
  match jsLastIndexOf p "/" with
  | some i => ⟨p.data.take (i + 1)⟩
  | none => ""

/-! ## Percent-coding (`encodeURIComponent` / `decodeURIComponent`) -/

/-- Upper-case hexadecimal digit. -/
def hexDigit (n : Nat) : Char :=
  if n < 10 then Char.ofNat (48 + n) else Char.ofNat (65 + n - 10)

/-- UTF-8 bytes of one character. -/
def utf8Bytes (c : Char) : List Nat :=
  let n := c.toNat
  if n < 128 then [n]
  else if n < 2048 then [192 + n / 64, 128 + n % 64]
  else if n < 65536 then [224 + n / 4096, 128 + n / 64 % 64, 128 + n % 64]
  else [240 + n / 262144, 128 + n / 4096 % 64, 128 + n / 64 % 64, 128 + n % 64]

/-- Characters `encodeURIComponent` leaves unescaped:
`A-Z a-z 0-9 - _ . ! ~ * ' ( )`. -/
def uriUnreserved (c : Char) : Bool :=
  c.isAlphanum || c == '-' || c == '_' || c == '.' || c == '!' ||
  c == '~' || c == '*' || c == quotS || c == '(' || c == ')'

/-- Percent-escape of a single byte. -/
def pctByte (n : Nat) : List Char :=
  ['%', hexDigit (n / 16), hexDigit (n % 16)]

/-- ECMAScript `encodeURIComponent`. -/
def encodeURIComponent (s : String) : String :=
  ⟨s.data.flatMap fun c =>
    if uriUnreserved c then [c] else (utf8Bytes c).flatMap pctByte⟩

/-- Value of one hexadecimal digit. -/
def hexVal (c : Char) : Option Nat :=
  let n := c.toNat
  if 48 ≤ n && n ≤ 57 then some (n - 48)
  else if 65 ≤ n && n ≤ 70 then some (n - 65 + 10)
  else if 97 ≤ n && n ≤ 102 then some (n - 97 + 10)
  else none

/-- One unit of a percent-decoded stream: either an escaped byte (`true`)
or a pass-through character code (`false`). -/
def pctDecode : List Char → Option (List (Bool × Nat))
  | [] => some []
  | '%' :: h1 :: h2 :: t =>
    match hexVal h1, hexVal h2 with
    | some a, some b => (pctDecode t).map fun r => (true, a * 16 + b) :: r
    | _, _ => none
  | '%' :: _ :: [] => none
  | '%' :: [] => none
  | c :: t => (pctDecode t).map fun r => (false, c.toNat) :: r

/-- Is `n` a UTF-8 continuation byte? -/
def isCont (n : Nat) : Bool := 128 ≤ n && n < 192

/-- Character from a code point, failing on invalid code points. -/
def charOf? (v : Nat) : Option Char :=
  if h : v.isValidChar then some (Char.ofNatAux v h) else none

/-- Decode the percent-decoded stream: pass-through characters stay as they
are, escaped bytes are decoded as UTF-8 (a malformed sequence is a
`URIError`, i.e. `none`). -/
def utf8Decode : List (Bool × Nat) → Option (List Char)
  | [] => some []
  | (false, n) :: t => (charOf? n).bind fun c => (utf8Decode t).map fun r => c :: r
  | (true, n) :: t =>
    if n < 128 then
      (charOf? n).bind fun c => (utf8Decode t).map fun r => c :: r
    else if n < 192 then none
    else if n < 224 then
      match t with
      | (true, b) :: t2 =>
        if isCont b then
          (charOf? ((n - 192) * 64 + (b - 128))).bind fun c =>
            (utf8Decode t2).map fun r => c :: r
        else none
      | _ => none
    else if n < 240 then
      match t with
      | (true, b) :: (true, c) :: t2 =>
        if isCont b && isCont c then
          (charOf? ((n - 224) * 4096 + (b - 128) * 64 + (c - 128))).bind fun ch =>
            (utf8Decode t2).map fun r => ch :: r
        else none
      | _ => none
    else
      match t with
      | (true, b) :: (true, c) :: (true, d) :: t2 =>
        if isCont b && isCont c && isCont d then
          (charOf? ((n - 240) * 262144 + (b - 128) * 4096 + (c - 128) * 64 + (d - 128))).bind
            fun ch => (utf8Decode t2).map fun r => ch :: r
        else none
      | _ => none

/-- ECMAScript `decodeURIComponent`; `none` models a thrown `URIError`. -/
def decodeURIComponent (s : String) : Option String :=
  (pctDecode s.data).bind fun units => (utf8Decode units).map fun cs => ⟨cs⟩

/-! ## URL model (WHATWG `URL` as exercised by the handler) -/

/-- A parsed URL. `scheme` has no colon, `host` is the full `host:port`
authority component, `pathname` starts with `/` for http(s) URLs, `search`
is empty or starts with `?`, `hash` is empty or starts with `#`. -/
structure URL where
  scheme : String
  host : String
  pathname : String
  search : String
  hash : String
  deriving DecidableEq, Repr

/-- `url.protocol` (includes the trailing colon). -/
def URL.protocol (u : URL) : String := u.scheme ++ ":"

/-- `url.origin` for http(s) URLs. -/
def URL.origin (u : URL) : String := u.scheme ++ "://" ++ u.host

/-- `url.toString()` / `url.href`. -/
def URL.toStr (u : URL) : String :=
  if u.host == "" then u.scheme ++ ":" ++ u.pathname ++ u.search ++ u.hash
  else u.scheme ++ "://" ++ u.host ++ u.pathname ++ u.search ++ u.hash

/-- RFC 3986 dot-segment removal on a list of path segments
(the leading empty segment of an absolute path is handled by the caller). -/
def rdsAux : List String → List String → List String
  | stack, [] => stack.reverse
  | stack, ["."] => stack.reverse ++ [""]
  | stack, [".."] => (stack.drop 1).reverse ++ [""]
  | stack, "." :: rest => rdsAux stack rest
  | stack, ".." :: rest => rdsAux (stack.drop 1) rest
  | stack, s :: rest => rdsAux (s :: stack) rest

/-- Split a character list at a separator character. -/
def splitOnChar (sep : Char) : List Char → List (List Char)
  | [] => [[]]
  | c :: t =>
    let r := splitOnChar sep t
    if c == sep then [] :: r
    else
      match r with
      | h :: t2 => (c :: h) :: t2
      | [] => [[c]]

/-- Join segments with `/`. -/
def joinSlash : List (List Char) → List Char
  | [] => []
  | [s] => s
  | s :: t => s ++ '/' :: joinSlash t

/-- Dot-segment removal on an absolute path string. -/
def removeDotSegments (p : String) : String :=
  match splitOnChar '/' p.data with
  | [] :: segs =>
    ⟨'/' :: joinSlash ((rdsAux [] (segs.map fun l => (⟨l⟩ : String))).map String.data)⟩
  | _ => p

/-- Scheme characters (`ALPHA *( ALPHA / DIGIT / "+" / "-" / "." )`). -/
def isSchemeChar (c : Char) : Bool :=
  c.isAlphanum || c == '+' || c == '-' || c == '.'

/-- Split off `scheme:` from the front, if present. -/
def splitScheme (s : List Char) : Option (String × List Char) :=
  match s with
  | c :: _ =>
    if c.isAlpha then
      match s.dropWhile isSchemeChar with
      | ':' :: rest => some (⟨s.takeWhile isSchemeChar⟩, rest)
      | _ => none
    else none
  | [] => none

/-- Characters that terminate the authority component of a special URL. -/
def endsAuthority (c : Char) : Bool :=
  c == '/' || c == '?' || c == '#' || c == bslC

/-- Strip `userinfo@` (up to the last `@`) from an authority. -/
def stripUserinfo (auth : List Char) : List Char :=
  if auth.contains '@' then (auth.reverse.takeWhile (fun c => !(c == '@'))).reverse
  else auth

/-- Split `path?query#hash` (everything after the authority). The query
includes its `?` unless empty, the fragment includes its `#` unless empty,
matching the `search`/`hash` getters. -/
def splitPQH (l : List Char) : List Char × String × String :=
  let isPathChar := fun (c : Char) => !(c == '?' || c == '#')
  let p := l.takeWhile isPathChar
  let r := l.dropWhile isPathChar
  match r with
  | '?' :: _ =>
    let q := r.takeWhile fun c => !(c == '#')
    let h := r.dropWhile fun c => !(c == '#')
    (p, if q = ['?'] then "" else ⟨q⟩, if h = ['#'] then "" else ⟨h⟩)
  | '#' :: _ => (p, "", if r = ['#'] then "" else ⟨r⟩)
  | _ => (p, "", "")

/-- Normalise an http(s) path: backslashes become slashes, the empty path
becomes `/`, dot segments are removed. -/
def normPath (p : List Char) : String :=
  let p' := (if p = [] then ['/'] else p).map fun c => if c == bslC then '/' else c
  removeDotSegments ⟨p'⟩

/-- The WHATWG `new URL(s)` constructor (absolute URLs), for the shapes the
handler can produce. `none` models a thrown `TypeError`. Port validation
and percent-encoding normalisation of the serialisation are not modelled. -/
def parseURL (s : String) : Option URL :=
  match splitScheme s.data with
  | none => none
  | some (schRaw, rest) =>
    let sch := lowerStr schRaw
    if sch == "http" || sch == "https" then
      match rest with
      | '/' :: '/' :: r2 =>
        let auth := r2.takeWhile fun c => !endsAuthority c
        let after := r2.dropWhile fun c => !endsAuthority c
        let hostRaw := stripUserinfo auth
        if hostRaw = [] then none
        else
          let (p, q, h) := splitPQH after
          some ⟨sch, lowerStr ⟨hostRaw⟩, normPath p, q, h⟩
      | _ => none
    else
      match rest with
      | '/' :: '/' :: r2 =>
        let auth := r2.takeWhile fun c => !endsAuthority c
        let after := r2.dropWhile fun c => !endsAuthority c
        let (p, q, h) := splitPQH after
        some ⟨sch, ⟨stripUserinfo auth⟩, ⟨p⟩, q, h⟩
      | _ =>
        let (p, q, h) := splitPQH rest
        some ⟨sch, "", ⟨p⟩, q, h⟩

/-- The WHATWG `new URL(loc, base)` constructor: absolute URLs parse on
their own, otherwise `loc` is resolved against `base`. -/
def resolveURL (loc : String) (base : URL) : Option URL :=
  match splitScheme loc.data with
  | some _ => parseURL loc
  | none =>
    match loc.data with
    | [] => some { base with hash := "" }
    | '/' :: '/' :: _ => parseURL (base.scheme ++ ":" ++ loc)
    | '/' :: _ =>
      let (p, q, h) := splitPQH loc.data
      some { base with pathname := normPath p, search := q, hash := h }
    | '?' :: _ =>
      let (_, q, h) := splitPQH loc.data
      some { base with search := q, hash := h }
    | '#' :: _ => some { base with hash := if loc = "#" then "" else loc }
    | _ =>
      let (p, q, h) := splitPQH loc.data
      some { base with
        pathname := removeDotSegments (dirOf base.pathname ++ (⟨p⟩ : String)),
        search := q, hash := h }

/-! ## Headers (case-insensitive multimap as used through `Headers`) -/

/-- A header list; name lookups are case-insensitive like JS `Headers`. -/
abbrev HdrList := List (String × String)

/-- `headers.get(n)` (case-insensitive, first entry). -/
def hget (hs : HdrList) (n : String) : Option String :=
  (hs.find? fun p => lowerStr p.1 == lowerStr n).map Prod.snd

/-- `headers.has(n)`. -/
def hhas (hs : HdrList) (n : String) : Bool :=
  (hget hs n).isSome

/-- `headers.set(n, v)`: replace any entries with that (case-insensitive)
name by a single entry. -/
def hset (hs : HdrList) (n v : String) : HdrList :=
  (hs.filter fun p => !(lowerStr p.1 == lowerStr n)) ++ [(n, v)]

/-- `headers.delete(n)`. -/
def hdel (hs : HdrList) (n : String) : HdrList :=
  hs.filter fun p => !(lowerStr p.1 == lowerStr n)

/-! ## Static configuration (source lines 5-42) -/

/-- `ALLOWED_DOMAINS` (source lines 5-12). -/
def ALLOWED_DOMAINS : List String :=
  ["store.steampowered.com", "api.steamcmd.net", "cdn.tailwindcss.com",
   "m.bsddji.cn", "download2342.mediafire.com", "steam.ddxnb.cn"]

/-- `PROXY_CONFIG` (source lines 15-22), in object-literal order. -/
def PROXY_CONFIG : List (String × String) :=
  [("/steam", "https://store.steampowered.com"),
   ("/steamcmd", "https://api.steamcmd.net"),
   ("/tailwindcss", "https://cdn.tailwindcss.com"),
   ("/mediafire", "https://mediafire.com"),
   ("/vpn", "https://m.bsddji.cn/ssone/0f6daf12a8d5af2552055bb8a01dd9e8"),
   ("/steamd", "https://steam.ddxnb.cn")]

/-- `HTML_CONTENT_TYPES` (source lines 25-30). -/
def HTML_CONTENT_TYPES : List String :=
  ["text/html", "application/xhtml+xml", "application/xml", "text/xml"]

/-- `CSS_CONTENT_TYPES` (source lines 33-35). -/
def CSS_CONTENT_TYPES : List String := ["text/css"]

/-- `JS_CONTENT_TYPES` (source lines 38-42). -/
def JS_CONTENT_TYPES : List String :=
  ["application/javascript", "text/javascript", "application/x-javascript"]

/-- `types.some(type => contentType.includes(type))`. -/
def anyTypeIn (types : List String) (contentType : String) : Bool :=
  types.any fun t => containsSub contentType t

/-! ## Route resolution (source lines 198-209) -/

/-- `path === prefix || path.startsWith(prefix + '/')` (source line 204). -/
def jsMatches (path pfx : String) : Bool :=
  path == pfx || jsStartsWith path (pfx ++ "/")

/-- Code-unit lexicographic order on strings (the default ECMAScript
`Array.prototype.sort` comparison; identical to code-point order here). -/
def lexLt : List Char → List Char → Bool
  | [], [] => false
  | [], _ :: _ => true
  | _ :: _, [] => false
  | a :: s, b :: t => a.toNat < b.toNat || (a == b && lexLt s t)

/-- Insert into a lexicographically ascending list. -/
def insSorted (x : String) : List String → List String
  | [] => [x]
  | y :: ys => if lexLt x.data y.data then x :: y :: ys else y :: insSorted x ys

/-- Ascending sort of the keys (`Object.keys(PROXY_CONFIG).sort()`). -/
def sortStrs (l : List String) : List String :=
  l.foldr insSorted []

/-- `Object.keys(PROXY_CONFIG).sort().reverse()` (source line 201). -/
def sortedKeys : List String :=
  (sortStrs (PROXY_CONFIG.map Prod.fst)).reverse

/-- `PROXY_CONFIG[prefix]`. -/
def lookupConfig (pfx : String) : Option String :=
  (PROXY_CONFIG.find? fun p => p.1 == pfx).map Prod.snd

/-- The matching loop (source lines 203-209): first matching prefix of the
reverse-sorted key list, paired with its configured base URL. -/
def findRoute (path : String) : Option (String × String) :=
  (sortedKeys.find? fun p => jsMatches path p).bind fun p =>
    (lookupConfig p).map fun b => (p, b)

/-! ## Requests, responses and the pre-fetch stage -/

/-- The inbound request (platform-parsed URL, method, headers). -/
structure InboundRequest where
  method : String
  url : URL
  headers : HdrList
  deriving DecidableEq, Repr

/-- The upstream response handed back by `fetch`. -/
structure UpstreamResponse where
  status : Nat
  statusText : String
  headers : HdrList
  body : String
  deriving DecidableEq, Repr

/-- A response returned to the client. -/
structure SimpleResponse where
  status : Nat
  statusText : String
  headers : HdrList
  body : Option String
  deriving DecidableEq, Repr

/-- The outbound proxy request built before `fetch`. -/
structure OutboundRequest where
  url : URL
  method : String
  headers : HdrList
  deriving DecidableEq, Repr

/-- Which routing path produced the fetch. -/
inductive PathType where
  | generic
  | prefixed (pfx : String)
  deriving DecidableEq, Repr

/-- Outcome of the handler before any upstream fetch. -/
inductive PreOutcome where
  | respond (r : SimpleResponse)
  | toFetch (pt : PathType) (req : OutboundRequest)
  | noMatch
  | crash
  deriving DecidableEq, Repr

/-- Result of the single upstream fetch. -/
inductive FetchOutcome where
  | success (u : UpstreamResponse)
  | failure (msg : String)
  deriving DecidableEq, Repr

/-- Final handler result (`crash` models an uncaught exception). -/
inductive HandlerResult where
  | respond (r : SimpleResponse)
  | noMatch
  | crash
  deriving DecidableEq, Repr

/-- The OPTIONS preflight response (source lines 59-70). -/
def optionsResponse : SimpleResponse :=
  ⟨204, "",
   [("Access-Control-Allow-Origin", "*"),
    ("Access-Control-Allow-Methods", "GET, POST, PUT, DELETE, PATCH, OPTIONS"),
    ("Access-Control-Allow-Headers",
     "Content-Type, Authorization, X-Requested-With, Accept, Origin, Range"),
    ("Access-Control-Max-Age", "86400"),
    ("Cache-Control", "public, max-age=86400")],
   none⟩

/-- A 403 plain-text response (the common `Response` init of the 403s). -/
def plain403 (msg : String) : SimpleResponse :=
  ⟨403, "",
   [("Access-Control-Allow-Origin", "*"),
    ("Content-Type", "text/plain;charset=UTF-8")],
   some msg⟩

/-- Generic-path target 403 body (source line 95). -/
def generic403Body (host : String) : String :=
  "禁止代理该域名：" ++ host

/-- Prefix-path target 403 body (source line 219). -/
def prefix403Body (host : String) : String :=
  "目标域名 " ++ host ++ " 不在允许列表内"

/-- Generic-path redirect 403 body (source line 174). -/
def genericRedirect403Body (host : String) : String :=
  "重定向目标域名 " ++ host ++ " 不在允许列表内"

/-- Prefix-path redirect 403 body (source line 465). -/
def prefixRedirect403Body (host : String) : String :=
  "重定向目标域名 " ++ host ++ " 不在允许列表内"

/-- Generic-path catch response (source lines 187-193); the interpolated
`${error}` text is platform-dependent and is modelled by `msg`. -/
def generic502 (msg : String) : SimpleResponse :=
  ⟨502, "",
   [("Access-Control-Allow-Origin", "*"),
    ("Content-Type", "text/plain;charset=UTF-8")],
   some ("代理请求失败: " ++ msg)⟩

/-- Prefix-path catch response (source lines 482-488). -/
def prefix502 : SimpleResponse :=
  ⟨502, "",
   [("Access-Control-Allow-Origin", "*"),
    ("Content-Type", "text/plain;charset=UTF-8")],
   some "代理请求失败"⟩

/-- Modelled text of a platform `TypeError` thrown by `new URL` (the real
message is environment-specific; no claim depends on its contents). -/
def invalidURLMsg : String := "Invalid URL"

/-- Modelled text of a platform `URIError` (see `invalidURLMsg`). -/
def uriMalformedMsg : String := "URI malformed"

/-- Referer rewriting (source lines 132-141 / 249-258): parse failures are
swallowed and leave the inbound value unchanged. -/
def rewriteRefererValue (target : URL) (r : String) : String :=
  match parseURL r with
  | some ru => target.protocol ++ "//" ++ target.host ++ ru.pathname ++ ru.search
  | none => r

/-- The outbound header construction (source lines 112-141 / 233-258):
copy inbound headers, set `Host` and the forwarding headers, drop
`accept-encoding`, rewrite or synthesise `referer`. -/
def buildProxyHeaders (hs : HdrList) (target : URL) (ctxIp : String)
    (proxyHost proxyScheme : String) : HdrList :=
  let clientIp := if ctxIp == "" then (hget hs "x-nf-client-connection-ip").getD "" else ctxIp
  let h1 := hset hs "Host" target.host
  let h2 := hset h1 "X-Forwarded-For" clientIp
  let h3 := hset h2 "X-Forwarded-Host" proxyHost
  let h4 := hset h3 "X-Forwarded-Proto" proxyScheme
  let h5 := hdel h4 "accept-encoding"
  match hget hs "referer" with
  | some r => hset h5 "referer" (rewriteRefererValue target r)
  | none => hset h5 "referer" (target.protocol ++ "//" ++ target.host ++ "/")

/-- `path.substring('/proxy/'.length)` (source line 79). -/
def genericRawTarget (path : String) : String :=
  jsDrop path 7

/-- The decode step (source lines 82-84). -/
def genericDecodedTarget (raw : String) : Option String :=
  if jsStartsWith raw "http%3A%2F%2F" || jsStartsWith raw "https%3A%2F%2F" then
    decodeURIComponent raw
  else some raw

/-- The scheme-prepending step (source lines 87-89), after decoding. -/
def genericTargetString (raw : String) : Option String :=
  (genericDecodedTarget raw).map fun t =>
    if !jsStartsWith t "http://" && !jsStartsWith t "https://" then "https://" ++ t
    else t

/-- Query inheritance on the generic path (source lines 104-107). -/
def genericApplySearch (tus : String) (inboundSearch : String) (t : URL) : URL :=
  if inboundSearch != "" && !jsIncludesChar tus '?' then { t with search := inboundSearch }
  else t

/-- The fully resolved generic-path target. -/
def genericFinalTarget (raw inboundSearch : String) : Option URL :=
  (genericTargetString raw).bind fun tus =>
    (parseURL tus).map (genericApplySearch tus inboundSearch)

/-- `targetBaseUrl.replace(/\/$/, '') + remainingPath` (source lines 213-214). -/
def prefixTargetString (base path pfx : String) : String :=
  stripTrailingSlash base ++ jsDrop path pfx.length

/-- Everything the handler does before the upstream fetch (source lines
57-141 and 197-258): OPTIONS preflight, generic-path target extraction and
allow-list check, prefix routing and allow-list re-check, outbound request
construction. `crash` marks the prefix-path `new URL` call that sits
outside the `try` (source line 215). -/
def preFetch (req : InboundRequest) (ctxIp : String) : PreOutcome :=
  if req.method == "OPTIONS" then .respond optionsResponse
  else
    let url := req.url
    let path := url.pathname
    if jsStartsWith path "/proxy/" then
      match genericTargetString (genericRawTarget path) with
      | none => .respond (generic502 uriMalformedMsg)
      | some tus =>
        match parseURL tus with
        | none => .respond (generic502 invalidURLMsg)
        | some t =>
          if ALLOWED_DOMAINS.contains t.host then
            let t' := genericApplySearch tus url.search t
            .toFetch .generic
              ⟨t', req.method, buildProxyHeaders req.headers t' ctxIp url.host url.scheme⟩
          else .respond (plain403 (generic403Body t.host))
    else
      match findRoute path with
      | none => .noMatch
      | some (pfx, base) =>
        match parseURL (prefixTargetString base path pfx) with
        | none => .crash
        | some t =>
          if ALLOWED_DOMAINS.contains t.host then
            let t' := { t with search := url.search }
            .toFetch (.prefixed pfx)
              ⟨t', req.method, buildProxyHeaders req.headers t' ctxIp url.host url.scheme⟩
          else .respond (plain403 (prefix403Body t.host))

/-! ## Global-replace scanner

`gsubAux f 0 s` models `s.replace(/pat/gi, rep)` for the concrete patterns
below: at each position the match attempt `f` either yields the replacement
text together with `k` = (match length - 1), in which case the scanner
emits the replacement and skips the rest of the match, or the character is
copied. Replacement text is never rescanned, matching `String.replace`. -/

def gsubAux (f : List Char → Option (List Char × Nat)) : Nat → List Char → List Char
  | _ + 1, [] => []
  | 0, [] => []
  | 0, c :: t =>
    match f (c :: t) with
    | some (rep, k) => rep ++ gsubAux f k t
    | none => c :: gsubAux f 0 t
  | k + 1, _ :: t => gsubAux f k t

/-- Global replace on a string. -/
def gsub (f : List Char → Option (List Char × Nat)) (s : String) : String :=
  ⟨gsubAux f 0 s.data⟩

/-- Is `c` one of the two quote characters (`["']` in the patterns)? -/
def isQuote (c : Char) : Bool := c == quotD || c == quotS

/-- Characters admitted by `[^)'"]`. -/
def isUrlChar (c : Char) : Bool := !(c == ')' || isQuote c)

/-- Case-insensitive literal match returning the consumed original text. -/
def matchCI : List Char → List Char → Option (List Char × List Char)
  | [], s => some ([], s)
  | p :: ps, c :: cs =>
    if eqCI p c then (matchCI ps cs).map fun r => (c :: r.1, r.2) else none
  | _ :: _, [] => none

/-- First alternative (in order) that matches, with the consumed text —
regex alternation `(a|b|...)` at a fixed position. -/
def tryAlts : List (List Char) → List Char → Option (List Char × List Char)
  | [], _ => none
  | a :: rest, s =>
    match matchCI a s with
    | some r => some r
    | none => tryAlts rest s

/-- The interpolated `${targetDomain}` matched as regex text: `.` is a
wildcard for any non-line-terminator, other characters are matched
case-insensitively. -/
def matchDomCI : List Char → List Char → Option (List Char)
  | [], s => some s
  | p :: ps, c :: cs =>
    if p == '.' then (if c == nlC || c == crC then none else matchDomCI ps cs)
    else if eqCI p c then matchDomCI ps cs else none
  | _ :: _, [] => none

/-- `https?://` with the case-insensitive flag. -/
def matchHttpCI (s : List Char) : Option (List Char) :=
  (matchCI "http".data s).bind fun r =>
    match r.2 with
    | c :: r2 =>
      if eqCI c 's' then
        match matchCI "://".data r2 with
        | some r3 => some r3.2
        | none => (matchCI "://".data r.2).map Prod.snd
      else (matchCI "://".data r.2).map Prod.snd
    | [] => none

/-- `[^"']*?` followed by `["']`: the lazy run up to the first quote, the
closing quote, and the rest. -/
def lazyToQuote (s : List Char) : Option (List Char × Char × List Char) :=
  let v := s.takeWhile fun c => !isQuote c
  match s.dropWhile fun c => !isQuote c with
  | q :: rest => some (v, q, rest)
  | [] => none

/-- `[^)'"]*?` followed by `['"]?\)` (the closing of the `url(...)`
patterns): contents and rest after the `)`. -/
def urlClose (s : List Char) : Option (List Char × List Char) :=
  let v := s.takeWhile isUrlChar
  match s.dropWhile isUrlChar with
  | ')' :: rest => some (v, rest)
  | c :: ')' :: rest => if isQuote c then some (v, rest) else none
  | _ => none

/-- Attribute alternation of passes 1-3 (`href|src|action|content`). -/
def altAttrsA : List (List Char) :=
  ["href".data, "src".data, "action".data, "content".data]

/-- Attribute alternation of the bare-relative pass
(`href|src|action|data-src|data-href`). -/
def altAttrsB : List (List Char) :=
  ["href".data, "src".data, "action".data, "data-src".data, "data-href".data]

/-- Tail-recursive list length; the accumulator is re-forced each step so
the kernel evaluates it iteratively. -/
def lenTR : List Char → Nat → Nat
  | [], n => n
  | _ :: t, n =>
    match n with
    | 0 => lenTR t 1
    | j + 1 => lenTR t (j + 2)

/-- Consumed-length bookkeeping for `gsubAux`. -/
def consumed (s rest : List Char) : Nat := lenTR s 0 - lenTR rest 0 - 1

/-- Pass 1 (source lines 280-283):
`(href|src|action|content)=["']https?://DOM(/[^"']*?)["']` →
`$1="ORIGIN PFX$2"`. -/
def tryAttrAbs (dom origin pfx : List Char) (s : List Char) : Option (List Char × Nat) :=
  match tryAlts altAttrsA s with
  | none => none
  | some (attr, s1) =>
    match s1 with
    | '=' :: q :: s3 =>
      if isQuote q then
        match matchHttpCI s3 with
        | none => none
        | some s4 =>
          match matchDomCI dom s4 with
          | none => none
          | some s5 =>
            match s5 with
            | '/' :: s6 =>
              match lazyToQuote s6 with
              | some (v, _, rest) =>
                some (attr ++ '=' :: quotD :: (origin ++ pfx ++ '/' :: v ++ [quotD]),
                      consumed s rest)
              | none => none
            | _ => none
      else none
    | _ => none

/-- Pass 2 (source lines 285-288): protocol-relative variant of pass 1. -/
def tryAttrProto (dom origin pfx : List Char) (s : List Char) : Option (List Char × Nat) :=
  match tryAlts altAttrsA s with
  | none => none
  | some (attr, s1) =>
    match s1 with
    | '=' :: q :: '/' :: '/' :: s4 =>
      if isQuote q then
        match matchDomCI dom s4 with
        | none => none
        | some s5 =>
          match s5 with
          | '/' :: s6 =>
            match lazyToQuote s6 with
            | some (v, _, rest) =>
              some (attr ++ '=' :: quotD :: (origin ++ pfx ++ '/' :: v ++ [quotD]),
                    consumed s rest)
            | none => none
          | _ => none
      else none
    | _ => none

/-- Pass 3 (source lines 290-293):
`(href|src|action|content)=["'](/[^"']*?)["']` → `$1="ORIGIN PFX$2"`. -/
def tryAttrRoot (origin pfx : List Char) (s : List Char) : Option (List Char × Nat) :=
  match tryAlts altAttrsA s with
  | none => none
  | some (attr, s1) =>
    match s1 with
    | '=' :: q :: '/' :: s4 =>
      if isQuote q then
        match lazyToQuote s4 with
        | some (v, _, rest) =>
          some (attr ++ '=' :: quotD :: (origin ++ pfx ++ '/' :: v ++ [quotD]),
                consumed s rest)
        | none => none
      else none
    | _ => none

/-- Passes 4 / CSS-1 (source lines 295-298 and 384-387):
`url\(['"]?https?://DOM(/[^)'"]*?)['"]?\)` → `url(ORIGIN PFX$1)`. -/
def tryUrlAbs (dom origin pfx : List Char) (s : List Char) : Option (List Char × Nat) :=
  match matchCI "url(".data s with
  | none => none
  | some (_, r) =>
    let r1 := match r with
      | c :: t => if isQuote c then t else r
      | [] => r
    match matchHttpCI r1 with
    | none => none
    | some s4 =>
      match matchDomCI dom s4 with
      | none => none
      | some s5 =>
        match s5 with
        | '/' :: s6 =>
          match urlClose s6 with
          | some (v, rest) =>
            some ("url(".data ++ origin ++ pfx ++ '/' :: v ++ [')'], consumed s rest)
          | none => none
        | _ => none

/-- Passes 5 / CSS-2 (source lines 300-303 and 389-392): protocol-relative
variant of `tryUrlAbs`. -/
def tryUrlProto (dom origin pfx : List Char) (s : List Char) : Option (List Char × Nat) :=
  match matchCI "url(".data s with
  | none => none
  | some (_, r) =>
    let r1 := match r with
      | c :: t => if isQuote c then t else r
      | [] => r
    match r1 with
    | '/' :: '/' :: s4 =>
      match matchDomCI dom s4 with
      | none => none
      | some s5 =>
        match s5 with
        | '/' :: s6 =>
          match urlClose s6 with
          | some (v, rest) =>
            some ("url(".data ++ origin ++ pfx ++ '/' :: v ++ [')'], consumed s rest)
          | none => none
        | _ => none
    | _ => none

/-- Passes 6 / CSS-3 (source lines 305-308 and 394-397):
`url\(['"]?(/[^)'"]*?)['"]?\)` → `url(ORIGIN PFX$1)`. -/
def tryUrlRoot (origin pfx : List Char) (s : List Char) : Option (List Char × Nat) :=
  match matchCI "url(".data s with
  | none => none
  | some (_, r) =>
    let r1 := match r with
      | c :: t => if isQuote c then t else r
      | [] => r
    match r1 with
    | '/' :: s6 =>
      match urlClose s6 with
      | some (v, rest) =>
        some ("url(".data ++ origin ++ pfx ++ '/' :: v ++ [')'], consumed s rest)
      | none => none
    | _ => none

/-- Tail of the `<base>` pattern after the greedy `[^>]*`:
`href=["']https?://DOM(?:/[^"']*?)?["'][^>]*>`. -/
def baseTail (dom : List Char) (s : List Char) : Option (List Char) :=
  match matchCI "href=".data s with
  | none => none
  | some (_, r) =>
    match r with
    | q :: r2 =>
      if isQuote q then
        match matchHttpCI r2 with
        | none => none
        | some r3 =>
          match matchDomCI dom r3 with
          | none => none
          | some r4 =>
            let afterOpt : Option (List Char) :=
              match r4 with
              | '/' :: r5 =>
                match lazyToQuote r5 with
                | some (_, _, rest) => some rest
                | none => none
              | c :: rest2 => if isQuote c then some rest2 else none
              | [] => none
            match afterOpt with
            | none => none
            | some r6 =>
              match r6.dropWhile fun c => !(c == '>') with
              | '>' :: fin => some fin
              | _ => none
      else none
    | [] => none

/-- Greedy backtracking for the `[^>]*` in the `<base>` pattern: try the
longest split first. -/
def baseBacktrack (dom r : List Char) : Nat → Option (List Char)
  | 0 => baseTail dom r
  | k + 1 =>
    match baseTail dom (r.drop (k + 1)) with
    | some rest => some rest
    | none => baseBacktrack dom r k

/-- Pass 7 (source lines 310-313):
`<base[^>]*href=["']https?://DOM(?:/[^"']*?)?["'][^>]*>` →
`<base href="ORIGIN PFX/">`. -/
def tryBaseTag (dom origin pfx : List Char) (s : List Char) : Option (List Char × Nat) :=
  match matchCI "<base".data s with
  | none => none
  | some (_, r) =>
    match baseBacktrack dom r (r.takeWhile fun c => !(c == '>')).length with
    | some rest =>
      some ("<base href=".data ++ quotD :: (origin ++ pfx ++ '/' :: [quotD, '>']),
            consumed s rest)
    | none => none

/-- The negative lookahead `(?!https?:\/\/|\/\/|\/)` of the bare-relative
pass. -/
def laBare (v : List Char) : Bool :=
  (matchHttpCI v).isSome || "//".data.isPrefixOf v || "/".data.isPrefixOf v

/-- Pass 8, the bare-relative attribute pass (source lines 315-318):
`(href|src|action|data-src|data-href)=["']((?!https?:\/\/|\/\/|\/)[^"']+)["']`
→ `$1="ORIGIN PFX/DIRBASE$2"` (note the literal `/` of the template
between the matched prefix and the directory). -/
def tryBareAttr (origin pfx dirBase : List Char) (s : List Char) : Option (List Char × Nat) :=
  match tryAlts altAttrsB s with
  | none => none
  | some (attr, s1) =>
    match s1 with
    | '=' :: q :: s3 =>
      if isQuote q then
        if laBare s3 then none
        else
          let v := s3.takeWhile fun c => !isQuote c
          match s3.dropWhile fun c => !isQuote c with
          | _ :: rest =>
            if v = [] then none
            else
              some (attr ++ '=' :: quotD ::
                      (origin ++ pfx ++ '/' :: dirBase ++ v ++ [quotD]),
                    consumed s rest)
          | [] => none
      else none
    | _ => none

/-- The negative lookahead of the CSS bare pass
(`https?:\/\/|\/\/|\/|data:|\#`). -/
def laCssBare (v : List Char) : Bool :=
  (matchHttpCI v).isSome || "//".data.isPrefixOf v || "/".data.isPrefixOf v ||
  (matchCI "data:".data v).isSome || "#".data.isPrefixOf v

/-- CSS bare pass (source lines 402-405):
`url\(['"]?(?!https?:\/\/|\/\/|\/|data:|\#)([^)'"]*)['"]?\)` →
`url(ORIGIN PFX CSSDIR$1)` (no extra slash in this template). -/
def tryCssBare (origin pfx cssDir : List Char) (s : List Char) : Option (List Char × Nat) :=
  match matchCI "url(".data s with
  | none => none
  | some (_, r) =>
    let attempt := fun (x : List Char) =>
      if laCssBare x then none
      else
        let v := x.takeWhile isUrlChar
        match x.dropWhile isUrlChar with
        | ')' :: rest => some (v, rest)
        | c :: ')' :: rest => if isQuote c then some (v, rest) else none
        | _ => none
    let res := match r with
      | c :: t =>
        if isQuote c then
          match attempt t with
          | some y => some y
          | none => attempt r
        else attempt r
      | [] => attempt r
    match res with
    | some (v, rest) =>
      some ("url(".data ++ origin ++ pfx ++ cssDir ++ v ++ [')'], consumed s rest)
    | none => none

/-- JS pass 1 (source lines 410-413):
`(['"])https?://DOM(/[^'"]*?)(['"])` → `$1ORIGIN PFX$2$3`. -/
def tryJsAbs (dom origin pfx : List Char) (s : List Char) : Option (List Char × Nat) :=
  match s with
  | q :: s1 =>
    if isQuote q then
      match matchHttpCI s1 with
      | none => none
      | some s2 =>
        match matchDomCI dom s2 with
        | none => none
        | some s3 =>
          match s3 with
          | '/' :: s4 =>
            match lazyToQuote s4 with
            | some (v, q2, rest) =>
              some (q :: (origin ++ pfx ++ '/' :: v ++ [q2]), consumed s rest)
            | none => none
          | _ => none
    else none
  | [] => none

/-- JS pass 2 (source lines 415-418): protocol-relative variant. -/
def tryJsProto (dom origin pfx : List Char) (s : List Char) : Option (List Char × Nat) :=
  match s with
  | q :: '/' :: '/' :: s2 =>
    if isQuote q then
      match matchDomCI dom s2 with
      | none => none
      | some s3 =>
        match s3 with
        | '/' :: s4 =>
          match lazyToQuote s4 with
          | some (v, q2, rest) =>
            some (q :: (origin ++ pfx ++ '/' :: v ++ [q2]), consumed s rest)
          | none => none
        | _ => none
    else none
  | _ => none

/-- The extension alternation of JS pass 3, in source order. -/
def jsExts : List (List Char) :=
  ["js".data, "css".data, "png".data, "jpg".data, "jpeg".data, "gif".data,
   "svg".data, "webp".data, "ico".data, "mp3".data, "mp4".data, "webm".data,
   "ogg".data, "woff".data, "woff2".data, "ttf".data, "eot".data]

/-- Try each extension (case-insensitively) followed immediately by a
closing quote. -/
def tryExts : List (List Char) → List Char → Option (List Char × Char × List Char)
  | [], _ => none
  | e :: es, s =>
    match matchCI e s with
    | some (con, q :: rest) =>
      if isQuote q then some (con, q, rest) else tryExts es s
    | some (_, []) => tryExts es s
    | none => tryExts es s

/-- The lazy scan of JS pass 3: grow `[^'"]*?` until `\.(?:ext)` followed
by a quote matches. -/
def js3Scan : List Char → Option (List Char × Char × List Char)
  | [] => none
  | c :: t =>
    if isQuote c then none
    else if c == '.' then
      match tryExts jsExts t with
      | some (con, q, rest) => some ('.' :: con, q, rest)
      | none =>
        match js3Scan t with
        | some (g, q, rest) => some (c :: g, q, rest)
        | none => none
    else
      match js3Scan t with
      | some (g, q, rest) => some (c :: g, q, rest)
      | none => none

/-- JS pass 3 (source lines 420-423):
`(['"])(\/[^'"]*?\.(?:js|css|...))(['"])` → `$1ORIGIN PFX$2$3`. -/
def tryJsExt (origin pfx : List Char) (s : List Char) : Option (List Char × Nat) :=
  match s with
  | q :: '/' :: s2 =>
    if isQuote q then
      match js3Scan s2 with
      | some (g, q2, rest) =>
        some (q :: (origin ++ pfx ++ '/' :: g ++ [q2]), consumed s rest)
      | none => none
    else none
  | _ => none

/-- Text of the injected patch script before the first interpolation (source lines 329-372, with ECMAScript template-literal escape processing applied). -/
def fixPart1 : String :=
  "\n          <script>\n          (function() \x7b\n            const observer = new MutationObserver(function(mutations) \x7b\n              mutations.forEach(function(mutation) \x7b\n                if (mutation.type === 'childList') \x7b\n                  mutation.addedNodes.forEach(function(node) \x7b\n                    if (node.nodeType === 1) \x7b\n                      const elements = node.querySelectorAll('script[src], link[href], img[src], a[href], [data-src], [data-href]');\n                      elements.forEach(function(el) \x7b\n                        ['src', 'href', 'data-src', 'data-href'].forEach(function(attr) \x7b\n                          if (el.hasAttribute(attr)) \x7b\n                            let val = el.getAttribute(attr);\n                            if (val && !val.match(/^(https?:|//|"

/-- Patch-script text between the first interpolated origin and the origin-prefix pair of the `setAttribute` call. -/
def fixPart2 : String :=
  ")/)) \x7b\n                              if (val.startsWith('/')) \x7b\n                                el.setAttribute(attr, '"

/-- Patch-script text between the `setAttribute` interpolation and the `url(` interpolation of the style-rewrite branch. -/
def fixPart3 : String :=
  "' + val);\n                              \x7d\n                            \x7d\n                          \x7d\n                        \x7d);\n                      \x7d);\n                      \n                      const elementsWithStyle = node.querySelectorAll('[style*=\"url(\"]');\n                      elementsWithStyle.forEach(function(el) \x7b\n                        let style = el.getAttribute('style');\n                        if (style) \x7b\n                          style = style.replace(/url\\(['\"]?(\\/[^)'\"]*?)['\"]?\\)/gi, \n                                               'url("

/-- Patch-script text after the last interpolation, up to the closing backtick. -/
def fixPart4 : String :=
  "$1)');\n                          el.setAttribute('style', style);\n                        \x7d\n                      \x7d);\n                    \x7d\n                  \x7d);\n                \x7d\n              \x7d);\n            \x7d);\n            \n            observer.observe(document.body, \x7b\n              childList: true,\n              subtree: true\n            \x7d);\n          \x7d)();\n          </script>\n          "

/-- `fixScript` (source lines 329-372): the emitted client-side patch script, as a function of `url.origin` and `matchedPrefix`. -/
def fixScript (o p : String) : String :=
  fixPart1 ++ o ++ fixPart2 ++ o ++ p ++ fixPart3 ++ o ++ p ++ fixPart4

/-- Script injection (source lines 374-379): insert before the last
`</body>`, or append when absent. -/
def injectScript (origin pfx : String) (content : String) : String :=
  match jsLastIndexOf content "</body>" with
  | some i =>
    (⟨content.data.take i⟩ : String) ++ fixScript origin pfx ++ (⟨content.data.drop i⟩ : String)
  | none => content ++ fixScript origin pfx

/-- The HTML rewrite pipeline (source lines 279-379): the eight
substitution passes in source order (`SPECIAL_REPLACEMENTS` is empty),
then script injection. -/
def htmlRewrite (origin pfx dom dirBase : String) (content : String) : String :=
  let c1 := gsub (tryAttrAbs dom.data origin.data pfx.data) content
  let c2 := gsub (tryAttrProto dom.data origin.data pfx.data) c1
  let c3 := gsub (tryAttrRoot origin.data pfx.data) c2
  let c4 := gsub (tryUrlAbs dom.data origin.data pfx.data) c3
  let c5 := gsub (tryUrlProto dom.data origin.data pfx.data) c4
  let c6 := gsub (tryUrlRoot origin.data pfx.data) c5
  let c7 := gsub (tryBaseTag dom.data origin.data pfx.data) c6
  let c8 := gsub (tryBareAttr origin.data pfx.data dirBase.data) c7
  injectScript origin pfx c8

/-- The CSS rewrite pipeline (source lines 383-405). -/
def cssRewrite (origin pfx dom cssDir : String) (content : String) : String :=
  let c1 := gsub (tryUrlAbs dom.data origin.data pfx.data) content
  let c2 := gsub (tryUrlProto dom.data origin.data pfx.data) c1
  let c3 := gsub (tryUrlRoot origin.data pfx.data) c2
  gsub (tryCssBare origin.data pfx.data cssDir.data) c3

/-- The script rewrite pipeline (source lines 409-423). -/
def jsRewrite (origin pfx dom : String) (content : String) : String :=
  let c1 := gsub (tryJsAbs dom.data origin.data pfx.data) content
  let c2 := gsub (tryJsProto dom.data origin.data pfx.data) c1
  gsub (tryJsExt origin.data pfx.data) c2

/-- The full body rewrite (source lines 270-424): the sequential
content-family `if`s applied in order. -/
def rewriteContent (origin pfx : String) (target : URL) (contentType content : String) : String :=
  let dom := target.host
  let dirBase := dirOf target.pathname
  let c1 :=
    if anyTypeIn HTML_CONTENT_TYPES contentType then htmlRewrite origin pfx dom dirBase content
    else content
  let c2 :=
    if anyTypeIn CSS_CONTENT_TYPES contentType then
      cssRewrite origin pfx dom (dirOf target.pathname) c1
    else c1
  if anyTypeIn JS_CONTENT_TYPES contentType then jsRewrite origin pfx dom c2 else c2

/-! ## Post-fetch processing and the full handler -/

/-- Header normalisation shared by both paths (source lines 154-162 and
440-448): permissive CORS headers set, security headers stripped. -/
def corsify (hs : HdrList) : HdrList :=
  let h1 := hset hs "Access-Control-Allow-Origin" "*"
  let h2 := hset h1 "Access-Control-Allow-Methods" "GET, POST, PUT, DELETE, PATCH, OPTIONS"
  let h3 := hset h2 "Access-Control-Allow-Headers"
    "Content-Type, Authorization, X-Requested-With, Accept, Origin, Range"
  let h4 := hdel h3 "Content-Security-Policy"
  let h5 := hdel h4 "Content-Security-Policy-Report-Only"
  let h6 := hdel h5 "X-Frame-Options"
  hdel h6 "X-Content-Type-Options"

/-- Generic-path response processing after the fetch (source lines
147-184): copy status/body, normalise headers, then validate and rewrite a
redirect. A `new URL(location, targetUrl)` failure is caught by the
surrounding `try` (source line 185) and becomes the 502 response. -/
def postFetchGeneric (origin : String) (target : URL) (u : UpstreamResponse) :
    SimpleResponse :=
  let hs := corsify u.headers
  if 300 ≤ u.status ∧ u.status < 400 ∧ hhas u.headers "location" then
    let loc := (hget u.headers "location").getD ""
    match resolveURL loc target with
    | none => generic502 invalidURLMsg
    | some r =>
      if ALLOWED_DOMAINS.contains r.host then
        ⟨u.status, u.statusText,
         hset hs "Location" (origin ++ "/proxy/" ++ encodeURIComponent r.toStr),
         some u.body⟩
      else plain403 (genericRedirect403Body r.host)
  else ⟨u.status, u.statusText, hs, some u.body⟩

/-- Prefix-path response processing after the fetch (source lines 260-478):
content-type classification, body rewrite, header normalisation, cache
policy, then redirect validation and rewrite. -/
def postFetchPrefix (origin pfx : String) (target : URL) (u : UpstreamResponse) :
    SimpleResponse :=
  let contentType := (hget u.headers "content-type").getD ""
  let needsRewrite :=
    anyTypeIn HTML_CONTENT_TYPES contentType || anyTypeIn CSS_CONTENT_TYPES contentType ||
    anyTypeIn JS_CONTENT_TYPES contentType
  let body :=
    if needsRewrite then rewriteContent origin pfx target contentType u.body else u.body
  let hs0 := corsify u.headers
  let hs :=
    if anyTypeIn HTML_CONTENT_TYPES contentType then
      hset (hset (hset hs0 "Cache-Control"
        "no-store, no-cache, must-revalidate, proxy-revalidate") "Pragma" "no-cache")
        "Expires" "0"
    else hset hs0 "Cache-Control" "public, max-age=86400"
  if 300 ≤ u.status ∧ u.status < 400 ∧ hhas u.headers "location" then
    let loc := (hget u.headers "location").getD ""
    match resolveURL loc target with
    | none => prefix502
    | some r =>
      if ALLOWED_DOMAINS.contains r.host then
        ⟨u.status, u.statusText,
         hset hs "Location" (origin ++ pfx ++ r.pathname ++ r.search), some body⟩
      else plain403 (prefixRedirect403Body r.host)
  else ⟨u.status, u.statusText, hs, some body⟩

/-- The complete handler (source lines 57-494), with the single upstream
fetch abstracted as a `FetchOutcome` parameter. A fetch failure lands in
the surrounding `catch` of the respective path. -/
def handler (req : InboundRequest) (ctxIp : String) (fo : FetchOutcome) : HandlerResult :=
  match preFetch req ctxIp with
  | .respond r => .respond r
  | .noMatch => .noMatch
  | .crash => .crash
  | .toFetch pt oreq =>
    match fo with
    | .failure msg =>
      match pt with
      | .generic => .respond (generic502 msg)
      | .prefixed _ => .respond prefix502
    | .success u =>
      match pt with
      | .generic => .respond (postFetchGeneric req.url.origin oreq.url u)
      | .prefixed pfx => .respond (postFetchPrefix req.url.origin pfx oreq.url u)

/-! ## Iterative string equality and sample inputs -/

/-- Boolean character-list equality; the `&&` keeps the pending redex in
head position, so the kernel evaluates it iteratively even on long lists. -/
def beqChars : List Char → List Char → Bool
  | [], [] => true
  | a :: as, b :: bs => a == b && beqChars as bs
  | _, _ => false

/-- Boolean string equality evaluated iteratively by the kernel. -/
def beqStr (s t : String) : Bool := beqChars s.data t.data

/-- Proxy origin used by the concrete evaluations below. -/
def wOrigin : String := "https://p.example"

/-- Matched route prefix used by the concrete evaluations below. -/
def wPfx : String := "/steam"

/-- Target domain used by the concrete evaluations below. -/
def wDom : String := "store.steampowered.com"

/-- Target path directory used by the concrete evaluations below. -/
def wDir : String := "/a/"

/-- A body whose only quoted attribute is left unclosed. -/
def c8Seed : String := "<a href=\""

/-- A body whose embedded URLs are already proxy-rooted. -/
def c8Good : String := "<p><img src=\"https://p.example/steam/a/x.png\">ok"

/-! ## General lemmas -/

/-- Strings with equal character data are equal. -/
theorem strExt {s t : String} (h : s.data = t.data) : s = t := by
  cases s; cases t; exact congrArg String.mk h

/-- Soundness of the iterative character-list equality. -/
theorem beqChars_eq : ∀ {as bs : List Char}, beqChars as bs = true → as = bs
  | [], [], _ => rfl
  | a :: as, b :: bs, h => by
    simp only [beqChars, Bool.and_eq_true, beq_iff_eq] at h
    obtain ⟨h1, h2⟩ := h
    rw [h1, beqChars_eq h2]
  | [], _ :: _, h => by simp [beqChars] at h
  | _ :: _, [], h => by simp [beqChars] at h

/-- Soundness of the iterative string equality. -/
theorem beqStr_eq {s t : String} (h : beqStr s t = true) : s = t :=
  strExt (beqChars_eq h)

/-- Reflexivity of the iterative character-list equality. -/
theorem beqChars_refl : ∀ as : List Char, beqChars as as = true
  | [] => rfl
  | a :: as => by simp [beqChars, beqChars_refl as]

/-- A `false` result of the iterative string equality refutes equality. -/
theorem beqStr_ne {s t : String} (h : beqStr s t = false) : s ≠ t := by
  intro he
  subst he
  have hr := beqChars_refl s.data
  simp only [beqStr] at h
  rw [hr] at h
  cases h

/-- `lenTR` computes length plus accumulator. -/
theorem lenTR_eq : ∀ (l : List Char) (n : Nat), lenTR l n = l.length + n
  | [], n => by simp [lenTR]
  | _ :: t, n => by
    cases n with
    | zero => rw [lenTR, lenTR_eq t 1]; simp
    | succ j => rw [lenTR, lenTR_eq t (j + 2)]; simp; omega

/-- Skipping as many characters as remain yields the empty output. -/
theorem gsubAux_skip_all (f : List Char → Option (List Char × Nat)) :
    ∀ t : List Char, gsubAux f t.length t = []
  | [] => rfl
  | _ :: t => by
    show gsubAux f (t.length + 1) (_ :: t) = []
    rw [gsubAux]
    exact gsubAux_skip_all f t

/-- A name removed by the filter step of `hset`/`hdel` is never found. -/
theorem find?_filter_none (hs : HdrList) (k : String) :
    (hs.filter fun p => !(lowerStr p.1 == k)).find? (fun p => lowerStr p.1 == k) = none := by
  induction hs with
  | nil => rfl
  | cons a t ih =>
    by_cases h : lowerStr a.1 = k
    · simp [List.filter_cons, h, ih]
    · simp [List.filter_cons, h, List.find?_cons, ih]

/-- Filtering out one name does not change lookups of a different name. -/
theorem find?_filter_other (hs : HdrList) (k k2 : String) (hkk : k2 ≠ k) :
    (hs.filter fun p => !(lowerStr p.1 == k)).find? (fun p => lowerStr p.1 == k2) =
      hs.find? (fun p => lowerStr p.1 == k2) := by
  induction hs with
  | nil => rfl
  | cons a t ih =>
    have hkk2 : (k == k2) = false := beq_false_of_ne (Ne.symm hkk)
    by_cases h2 : lowerStr a.1 = k2
    · have hk : (lowerStr a.1 == k) = false := by
        rw [h2]
        exact beq_false_of_ne hkk
      simp [List.filter_cons, hk, List.find?_cons, h2, hkk]
    · by_cases hk : lowerStr a.1 = k
      · simp [List.filter_cons, hk, List.find?_cons, h2, ih, hkk2]
      · simp [List.filter_cons, hk, List.find?_cons, h2, ih]

/-- `headers.get` after `headers.set` of the same (case-insensitive) name. -/
theorem hget_hset_eq (hs : HdrList) (n v m : String) (h : lowerStr n = lowerStr m) :
    hget (hset hs n v) m = some v := by
  unfold hget hset
  rw [List.find?_append]
  rw [show (fun p : String × String => !(lowerStr p.1 == lowerStr n)) =
        (fun p : String × String => !(lowerStr p.1 == lowerStr m)) by rw [h]]
  rw [find?_filter_none]
  simp [List.find?_cons, h]

/-- `headers.get` after `headers.set` of a different name. -/
theorem hget_hset_ne (hs : HdrList) (n v m : String) (h : lowerStr n ≠ lowerStr m) :
    hget (hset hs n v) m = hget hs m := by
  unfold hget hset
  rw [List.find?_append]
  rw [find?_filter_other hs (lowerStr n) (lowerStr m) h.symm]
  have hn : (lowerStr n == lowerStr m) = false := beq_false_of_ne h
  cases hfind : hs.find? (fun p => lowerStr p.1 == lowerStr m) <;>
    simp [List.find?_cons, hn, hfind]

/-- `headers.get` after `headers.delete` of a different name. -/
theorem hget_hdel_ne (hs : HdrList) (n m : String) (h : lowerStr n ≠ lowerStr m) :
    hget (hdel hs n) m = hget hs m := by
  unfold hget hdel
  rw [find?_filter_other hs (lowerStr n) (lowerStr m) h.symm]

/-- `corsify` does not touch the `Location` header. -/
theorem hget_corsify_location (hs : HdrList) :
    hget (corsify hs) "location" = hget hs "location" := by
  unfold corsify
  rw [hget_hdel_ne, hget_hdel_ne, hget_hdel_ne, hget_hdel_ne,
      hget_hset_ne, hget_hset_ne, hget_hset_ne] <;> decide

/-- `corsify` pins `Access-Control-Allow-Origin` to `*`. -/
theorem hget_corsify_acao (hs : HdrList) :
    hget (corsify hs) "Access-Control-Allow-Origin" = some "*" := by
  unfold corsify
  rw [hget_hdel_ne, hget_hdel_ne, hget_hdel_ne, hget_hdel_ne,
      hget_hset_ne, hget_hset_ne, hget_hset_eq] <;> decide

/-- The prefix path on an allowed 3xx redirect: status is preserved and
`Location` is rewritten to `origin ++ pfx ++ path ++ query`. -/
theorem postFetchPrefix_3xx_allowed (origin pfx : String) (target : URL)
    (u : UpstreamResponse) (loc : String) (r : URL)
    (h1 : 300 ≤ u.status) (h2 : u.status < 400)
    (hloc : hget u.headers "location" = some loc)
    (hres : resolveURL loc target = some r)
    (hallow : ALLOWED_DOMAINS.contains r.host = true) :
    (postFetchPrefix origin pfx target u).status = u.status ∧
    hget (postFetchPrefix origin pfx target u).headers "location" =
      some (origin ++ pfx ++ r.pathname ++ r.search) := by
  have hh : hhas u.headers "location" = true := by simp [NetlifyProxy.hhas, hloc]
  simp only [postFetchPrefix]
  rw [if_pos ⟨h1, h2, hh⟩, hloc]
  simp only [Option.getD_some]
  simp only [hres]
  rw [if_pos hallow]
  exact ⟨rfl, hget_hset_eq _ _ _ _ (by decide)⟩

/-- The prefix path on a disallowed 3xx redirect: the whole response is
replaced by the 403. -/
theorem postFetchPrefix_3xx_forbidden (origin pfx : String) (target : URL)
    (u : UpstreamResponse) (loc : String) (r : URL)
    (h1 : 300 ≤ u.status) (h2 : u.status < 400)
    (hloc : hget u.headers "location" = some loc)
    (hres : resolveURL loc target = some r)
    (hallow : ALLOWED_DOMAINS.contains r.host = false) :
    postFetchPrefix origin pfx target u = plain403 (prefixRedirect403Body r.host) := by
  have hh : hhas u.headers "location" = true := by simp [NetlifyProxy.hhas, hloc]
  simp only [postFetchPrefix]
  rw [if_pos ⟨h1, h2, hh⟩, hloc]
  simp only [Option.getD_some]
  simp only [hres]
  rw [if_neg (show ¬ALLOWED_DOMAINS.contains r.host = true from fun h => by
    rw [hallow] at h
    cases h)]

/-- The prefix path outside the redirect window: status and `Location` pass
through untouched (the header normalisation does not touch `Location`). -/
theorem postFetchPrefix_not3xx (origin pfx : String) (target : URL)
    (u : UpstreamResponse)
    (hcond : ¬(300 ≤ u.status ∧ u.status < 400 ∧ hhas u.headers "location" = true)) :
    (postFetchPrefix origin pfx target u).status = u.status ∧
    hget (postFetchPrefix origin pfx target u).headers "location" =
      hget u.headers "location" := by
  simp only [postFetchPrefix]
  rw [if_neg hcond]
  refine ⟨rfl, ?_⟩
  by_cases hhtml : anyTypeIn HTML_CONTENT_TYPES ((hget u.headers "content-type").getD "") = true
  · rw [if_pos hhtml]
    rw [hget_hset_ne, hget_hset_ne, hget_hset_ne, hget_corsify_location] <;> decide
  · rw [if_neg hhtml]
    rw [hget_hset_ne, hget_corsify_location]
    decide

/-- The generic path on an allowed 3xx redirect. -/
theorem postFetchGeneric_3xx_allowed (origin : String) (target : URL)
    (u : UpstreamResponse) (loc : String) (r : URL)
    (h1 : 300 ≤ u.status) (h2 : u.status < 400)
    (hloc : hget u.headers "location" = some loc)
    (hres : resolveURL loc target = some r)
    (hallow : ALLOWED_DOMAINS.contains r.host = true) :
    (postFetchGeneric origin target u).status = u.status ∧
    hget (postFetchGeneric origin target u).headers "location" =
      some (origin ++ "/proxy/" ++ encodeURIComponent r.toStr) := by
  have hh : hhas u.headers "location" = true := by simp [NetlifyProxy.hhas, hloc]
  simp only [postFetchGeneric]
  rw [if_pos ⟨h1, h2, hh⟩, hloc]
  simp only [Option.getD_some]
  simp only [hres]
  rw [if_pos hallow]
  exact ⟨rfl, hget_hset_eq _ _ _ _ (by decide)⟩

/-- The generic path on a disallowed 3xx redirect. -/
theorem postFetchGeneric_3xx_forbidden (origin : String) (target : URL)
    (u : UpstreamResponse) (loc : String) (r : URL)
    (h1 : 300 ≤ u.status) (h2 : u.status < 400)
    (hloc : hget u.headers "location" = some loc)
    (hres : resolveURL loc target = some r)
    (hallow : ALLOWED_DOMAINS.contains r.host = false) :
    postFetchGeneric origin target u = plain403 (genericRedirect403Body r.host) := by
  have hh : hhas u.headers "location" = true := by simp [NetlifyProxy.hhas, hloc]
  simp only [postFetchGeneric]
  rw [if_pos ⟨h1, h2, hh⟩, hloc]
  simp only [Option.getD_some]
  simp only [hres]
  rw [if_neg (show ¬ALLOWED_DOMAINS.contains r.host = true from fun h => by
    rw [hallow] at h
    cases h)]

/-- The generic path outside the redirect window. -/
theorem postFetchGeneric_not3xx (origin : String) (target : URL)
    (u : UpstreamResponse)
    (hcond : ¬(300 ≤ u.status ∧ u.status < 400 ∧ hhas u.headers "location" = true)) :
    (postFetchGeneric origin target u).status = u.status ∧
    hget (postFetchGeneric origin target u).headers "location" =
      hget u.headers "location" := by
  simp only [postFetchGeneric]
  rw [if_neg hcond]
  exact ⟨rfl, hget_corsify_location u.headers⟩
/-- Two configured prefixes can both match a path only when the shorter one
extended by `/` is a prefix of the longer one extended by `/`; for any pair
where neither direction holds, the two cannot match the same path. -/
theorem jsMatches_incompat {path p q : String}
    (hpq : ((p ++ "/").data.isPrefixOf ((q ++ "/").data)) = false)
    (hqp : ((q ++ "/").data.isPrefixOf ((p ++ "/").data)) = false)
    (hp : jsMatches path p = true) (hq : jsMatches path q = true) : False := by
  simp only [jsMatches, jsStartsWith, Bool.or_eq_true, beq_iff_eq,
    List.isPrefixOf_iff_prefix] at hp hq
  rw [Bool.eq_false_iff] at hpq hqp
  rw [ne_eq, List.isPrefixOf_iff_prefix] at hpq hqp
  have hself : ∀ s : String, s.data <+: (s ++ "/").data := by
    intro s
    rw [String.data_append]
    exact List.prefix_append s.data _
  rcases hp with hp | hp <;> rcases hq with hq | hq
  · have hpq' : p = q := hp.symm.trans hq
    rw [hpq'] at hpq
    exact hpq (List.prefix_refl _)
  · -- path = p and (q ++ "/") a prefix of path
    have hq' : (q ++ "/").data <+: p.data := by rw [hp] at hq; exact hq
    exact hqp (hq'.trans (hself p))
  · have hp' : (p ++ "/").data <+: q.data := by rw [hq] at hp; exact hp
    exact hpq (hp'.trans (hself q))
  · rcases List.prefix_or_prefix_of_prefix hp hq with h | h
    · exact hpq h
    · exact hqp h

/-- The reverse-sorted key list, computed. -/
theorem sortedKeys_eq :
    sortedKeys = ["/vpn", "/tailwindcss", "/steamd", "/steamcmd", "/steam", "/mediafire"] := by
  decide

/-- A configured prefix that matches is the one the scan returns. -/
theorem findRoute_of_matches {path p b : String} (hmem : (p, b) ∈ PROXY_CONFIG)
    (hm : jsMatches path p = true) : findRoute path = some (p, b) := by
  have hfalse : ∀ q : String,
      ((p ++ "/").data.isPrefixOf ((q ++ "/").data)) = false →
      ((q ++ "/").data.isPrefixOf ((p ++ "/").data)) = false →
      jsMatches path q = false := by
    intro q h1 h2
    cases hv : jsMatches path q
    · rfl
    · exact (jsMatches_incompat h1 h2 hm hv).elim
  simp only [PROXY_CONFIG, List.mem_cons, List.mem_singleton, Prod.mk.injEq,
    List.not_mem_nil, or_false] at hmem
  rcases hmem with ⟨rfl, rfl⟩ | ⟨rfl, rfl⟩ | ⟨rfl, rfl⟩ | ⟨rfl, rfl⟩ | ⟨rfl, rfl⟩ | ⟨rfl, rfl⟩ <;>
    simp only [findRoute, sortedKeys_eq, List.find?] <;>
    rw [hm] <;>
    first
      | rfl
      | (rw [hfalse "/vpn" (by decide) (by decide)]; first
          | rfl
          | (rw [hfalse "/tailwindcss" (by decide) (by decide)]; first
              | rfl
              | (rw [hfalse "/steamd" (by decide) (by decide)]; first
                  | rfl
                  | (rw [hfalse "/steamcmd" (by decide) (by decide)]; first
                      | rfl
                      | (rw [hfalse "/steam" (by decide) (by decide)]; rfl)))))
/-! ## Claim theorems -/

/-- C2: for every inbound path and every pair of configured prefixes that
both match it (equality or `prefix + "/"` boundary match), the route
resolver — the scan of the reverse-lexically-sorted key list — selects the
longer prefix: whenever `p2` is at least as long as any other matching
configured prefix `p1`, `findRoute` returns `p2` with its configured base.
(For this configuration, two distinct configured prefixes never match the
same path, so the selected prefix is the unique, hence longest, match.) -/
theorem C2_longest_match (path p1 b1 p2 b2 : String)
    (h1 : (p1, b1) ∈ PROXY_CONFIG) (h2 : (p2, b2) ∈ PROXY_CONFIG)
    (hm1 : jsMatches path p1 = true) (hm2 : jsMatches path p2 = true)
    (hlen : p1.length ≤ p2.length) :
    findRoute path = some (p2, b2) :=
  findRoute_of_matches h2 hm2

/-- Witness for C2 at a concrete path matched by `/steam`. -/
theorem C2_longest_match_witness :
    findRoute "/steam/app/42" = some ("/steam", "https://store.steampowered.com") :=
  C2_longest_match "/steam/app/42" "/steam" "https://store.steampowered.com"
    "/steam" "https://store.steampowered.com"
    (by decide) (by decide) (by decide) (by decide) (by decide)

/-- C4: an OPTIONS request is answered immediately by the preflight 204
response — before route resolution and before any fetch (the handler result
does not depend on the fetch outcome) — and that response carries exactly
the five preflight headers of the source. -/
theorem C4_options_preflight (req : InboundRequest) (ctxIp : String)
    (h : req.method = "OPTIONS") :
    preFetch req ctxIp = .respond optionsResponse ∧
    (∀ fo : FetchOutcome, handler req ctxIp fo = .respond optionsResponse) ∧
    optionsResponse =
      ⟨204, "",
       [("Access-Control-Allow-Origin", "*"),
        ("Access-Control-Allow-Methods", "GET, POST, PUT, DELETE, PATCH, OPTIONS"),
        ("Access-Control-Allow-Headers",
         "Content-Type, Authorization, X-Requested-With, Accept, Origin, Range"),
        ("Access-Control-Max-Age", "86400"),
        ("Cache-Control", "public, max-age=86400")],
       none⟩ := by
  have hpre : preFetch req ctxIp = .respond optionsResponse := by
    unfold preFetch
    rw [if_pos (by simp [h])]
  refine ⟨hpre, fun fo => ?_, rfl⟩
  unfold handler
  rw [hpre]

/-- Witness for C4 at a concrete OPTIONS request. -/
theorem C4_options_preflight_witness :
    preFetch ⟨"OPTIONS", ⟨"https", "p.example", "/x", "", ""⟩, []⟩ "" =
      .respond optionsResponse :=
  (C4_options_preflight ⟨"OPTIONS", ⟨"https", "p.example", "/x", "", ""⟩, []⟩ "" rfl).1

/-- C6 counterexample: the claim says the redirect-rejection 403 bodies are
distinct per path type, but at a concrete host the generic-path message
(source line 174) and the prefix-path message (source line 465) are the
same string. -/
theorem C6_same_message_counterexample :
    genericRedirect403Body "www.example.com" = prefixRedirect403Body "www.example.com" :=
  rfl

/-- C6 amended: when a redirect target is rejected, both path types return
the same 403 plain-text body (`重定向目标域名 <host> 不在允许列表内`); only
the pre-fetch target-rejection bodies differ per path type. -/
theorem C6_amended_messages (host : String) :
    genericRedirect403Body host = prefixRedirect403Body host ∧
    generic403Body host ≠ prefix403Body host := by
  refine ⟨rfl, fun he => ?_⟩
  have hlen := congrArg String.length he
  simp only [generic403Body, prefix403Body, String.length_append,
    show ("禁止代理该域名：" : String).length = 8 from rfl,
    show ("目标域名 " : String).length = 5 from rfl,
    show (" 不在允许列表内" : String).length = 8 from rfl] at hlen
  omega
/-- C5: redirect validation and rewriting. For a 3xx upstream response with
a `Location` header resolving (against the target) to `r`: a disallowed
`r.host` replaces the whole response with the 403 on either path; an
allowed one rewrites `Location` to `origin ++ pfx ++ path ++ query` on the
prefix path and to `origin ++ "/proxy/" ++ encodeURIComponent(href)` on the
generic path, preserving the status. A response outside [300,400) or
without `Location` keeps its status and `Location` untouched on both
paths. -/
theorem C5_redirect_validation (origin pfx : String) (target : URL)
    (u : UpstreamResponse) (loc : String) (r : URL) :
    (300 ≤ u.status → u.status < 400 → hget u.headers "location" = some loc →
      resolveURL loc target = some r →
      ((ALLOWED_DOMAINS.contains r.host = false →
        postFetchPrefix origin pfx target u = plain403 (prefixRedirect403Body r.host) ∧
        postFetchGeneric origin target u = plain403 (genericRedirect403Body r.host)) ∧
       (ALLOWED_DOMAINS.contains r.host = true →
        (postFetchPrefix origin pfx target u).status = u.status ∧
        hget (postFetchPrefix origin pfx target u).headers "location" =
          some (origin ++ pfx ++ r.pathname ++ r.search) ∧
        (postFetchGeneric origin target u).status = u.status ∧
        hget (postFetchGeneric origin target u).headers "location" =
          some (origin ++ "/proxy/" ++ encodeURIComponent r.toStr)))) ∧
    (¬(300 ≤ u.status ∧ u.status < 400 ∧ hhas u.headers "location" = true) →
      (postFetchPrefix origin pfx target u).status = u.status ∧
      hget (postFetchPrefix origin pfx target u).headers "location" =
        hget u.headers "location" ∧
      (postFetchGeneric origin target u).status = u.status ∧
      hget (postFetchGeneric origin target u).headers "location" =
        hget u.headers "location") := by
  constructor
  · intro h1 h2 hloc hres
    constructor
    · intro hallow
      exact ⟨postFetchPrefix_3xx_forbidden origin pfx target u loc r h1 h2 hloc hres hallow,
             postFetchGeneric_3xx_forbidden origin target u loc r h1 h2 hloc hres hallow⟩
    · intro hallow
      obtain ⟨hs1, hl1⟩ :=
        postFetchPrefix_3xx_allowed origin pfx target u loc r h1 h2 hloc hres hallow
      obtain ⟨hs2, hl2⟩ :=
        postFetchGeneric_3xx_allowed origin target u loc r h1 h2 hloc hres hallow
      exact ⟨hs1, hl1, hs2, hl2⟩
  · intro hcond
    obtain ⟨hs1, hl1⟩ := postFetchPrefix_not3xx origin pfx target u hcond
    obtain ⟨hs2, hl2⟩ := postFetchGeneric_not3xx origin target u hcond
    exact ⟨hs1, hl1, hs2, hl2⟩

/-- Witness for C5: a 302 from the Steam target with `Location: /login` is
rewritten on both paths, at concrete inputs. -/
theorem C5_redirect_validation_witness :
    (postFetchPrefix "https://p.example" "/steam"
        ⟨"https", "store.steampowered.com", "/app/42", "", ""⟩
        ⟨302, "Found", [("Location", "/login")], "B"⟩).status = 302 ∧
    hget (postFetchPrefix "https://p.example" "/steam"
        ⟨"https", "store.steampowered.com", "/app/42", "", ""⟩
        ⟨302, "Found", [("Location", "/login")], "B"⟩).headers "location" =
      some ("https://p.example" ++ "/steam" ++ "/login" ++ "") ∧
    (postFetchGeneric "https://p.example"
        ⟨"https", "store.steampowered.com", "/app/42", "", ""⟩
        ⟨302, "Found", [("Location", "/login")], "B"⟩).status = 302 ∧
    hget (postFetchGeneric "https://p.example"
        ⟨"https", "store.steampowered.com", "/app/42", "", ""⟩
        ⟨302, "Found", [("Location", "/login")], "B"⟩).headers "location" =
      some ("https://p.example" ++ "/proxy/" ++
        encodeURIComponent (URL.toStr ⟨"https", "store.steampowered.com", "/login", "", ""⟩)) :=
  ((C5_redirect_validation "https://p.example" "/steam"
      ⟨"https", "store.steampowered.com", "/app/42", "", ""⟩
      ⟨302, "Found", [("Location", "/login")], "B"⟩ "/login"
      ⟨"https", "store.steampowered.com", "/login", "", ""⟩).1
    (by decide) (by decide) (by decide) (by decide)).2 (by decide)

/-- C10: on the prefix path, an allowed 3xx redirect — even to a different
allow-listed host than the matched route's target — is rewritten to
`proxy-origin ++ matched-prefix ++ resolved-path ++ resolved-query`: the
resolved host is discarded (the client is sent back through the matched
prefix) and the resolved fragment does not appear. -/
theorem C10_redirect_rehomed (origin pfx : String) (target : URL)
    (u : UpstreamResponse) (loc : String) (r : URL)
    (h1 : 300 ≤ u.status) (h2 : u.status < 400)
    (hloc : hget u.headers "location" = some loc)
    (hres : resolveURL loc target = some r)
    (hallow : ALLOWED_DOMAINS.contains r.host = true)
    (hdiff : r.host ≠ target.host) :
    hget (postFetchPrefix origin pfx target u).headers "location" =
      some (origin ++ pfx ++ r.pathname ++ r.search) ∧
    (postFetchPrefix origin pfx target u).status = u.status :=
  let h := postFetchPrefix_3xx_allowed origin pfx target u loc r h1 h2 hloc hres hallow
  ⟨h.2, h.1⟩

/-- Witness for C10: a redirect from the Steam target to the allowed
`api.steamcmd.net` host, with query and fragment. -/
theorem C10_redirect_rehomed_witness :
    hget (postFetchPrefix "https://p.example" "/steam"
        ⟨"https", "store.steampowered.com", "/app/42", "", ""⟩
        ⟨302, "Found", [("Location", "https://api.steamcmd.net/foo?q=1#frag")], "B"⟩).headers
      "location" =
      some ("https://p.example" ++ "/steam" ++ "/foo" ++ "?q=1") ∧
    (postFetchPrefix "https://p.example" "/steam"
        ⟨"https", "store.steampowered.com", "/app/42", "", ""⟩
        ⟨302, "Found", [("Location", "https://api.steamcmd.net/foo?q=1#frag")], "B"⟩).status =
      302 :=
  C10_redirect_rehomed "https://p.example" "/steam"
    ⟨"https", "store.steampowered.com", "/app/42", "", ""⟩
    ⟨302, "Found", [("Location", "https://api.steamcmd.net/foo?q=1#frag")], "B"⟩
    "https://api.steamcmd.net/foo?q=1#frag"
    ⟨"https", "api.steamcmd.net", "/foo", "?q=1", "#frag"⟩
    (by decide) (by decide) (by decide) (by decide) (by decide) (by decide)
/-- Query inheritance does not change the target host. -/
theorem genericApplySearch_host (tus s : String) (t : URL) :
    (genericApplySearch tus s t).host = t.host := by
  unfold genericApplySearch
  split <;> rfl

/-- Query inheritance does not change scheme, host, pathname or hash, and
sets the query by the documented condition. -/
theorem genericApplySearch_search (tus s : String) (t : URL) :
    (genericApplySearch tus s t).search =
      if (s != "" && !jsIncludesChar tus '?') = true then s else t.search := by
  unfold genericApplySearch
  split <;> simp_all

/-- Every fetch the handler issues targets an allow-listed host. -/
theorem preFetch_toFetch_allowed (req : InboundRequest) (ctxIp : String)
    (pt : PathType) (oreq : OutboundRequest)
    (h : preFetch req ctxIp = .toFetch pt oreq) :
    ALLOWED_DOMAINS.contains oreq.url.host = true := by
  unfold preFetch at h
  dsimp only at h
  split at h
  · simp at h
  · split at h
    · split at h
      · simp at h
      · split at h
        · simp at h
        · split at h
          · injection h with h1 h2
            subst h2
            rw [genericApplySearch_host]
            assumption
          · simp at h
    · split at h
      · simp at h
      · split at h
        · simp at h
        · split at h
          · injection h with h1 h2
            subst h2
            assumption
          · simp at h

/-- The generic-path 403 before any fetch. -/
theorem preFetch_generic_forbidden (req : InboundRequest) (ctxIp : String)
    (tus : String) (t : URL)
    (hopt : req.method ≠ "OPTIONS")
    (hpath : jsStartsWith req.url.pathname "/proxy/" = true)
    (htus : genericTargetString (genericRawTarget req.url.pathname) = some tus)
    (hparse : parseURL tus = some t)
    (hallow : ALLOWED_DOMAINS.contains t.host = false) :
    preFetch req ctxIp = .respond (plain403 (generic403Body t.host)) := by
  unfold preFetch
  rw [if_neg (by simp [hopt])]
  rw [if_pos hpath]
  simp only [htus, hparse]
  rw [if_neg (show ¬ALLOWED_DOMAINS.contains t.host = true from fun hc => by
    rw [hallow] at hc
    cases hc)]

/-- The prefix-path 403 before any fetch. -/
theorem preFetch_prefixed_forbidden (req : InboundRequest) (ctxIp : String)
    (pfx base : String) (t : URL)
    (hopt : req.method ≠ "OPTIONS")
    (hpath : jsStartsWith req.url.pathname "/proxy/" = false)
    (hroute : findRoute req.url.pathname = some (pfx, base))
    (hparse : parseURL (prefixTargetString base req.url.pathname pfx) = some t)
    (hallow : ALLOWED_DOMAINS.contains t.host = false) :
    preFetch req ctxIp = .respond (plain403 (prefix403Body t.host)) := by
  unfold preFetch
  rw [if_neg (by simp [hopt])]
  rw [if_neg (by simp [hpath])]
  simp only [hroute, hparse]
  rw [if_neg (show ¬ALLOWED_DOMAINS.contains t.host = true from fun hc => by
    rw [hallow] at hc
    cases hc)]

/-- The generic-path 502 when the target string does not parse. -/
theorem preFetch_generic_badurl (req : InboundRequest) (ctxIp : String)
    (tus : String)
    (hopt : req.method ≠ "OPTIONS")
    (hpath : jsStartsWith req.url.pathname "/proxy/" = true)
    (htus : genericTargetString (genericRawTarget req.url.pathname) = some tus)
    (hparse : parseURL tus = none) :
    preFetch req ctxIp = .respond (generic502 invalidURLMsg) := by
  unfold preFetch
  rw [if_neg (by simp [hopt])]
  rw [if_pos hpath]
  simp only [htus, hparse]

/-- The generic-path fetch target is the parsed target string with the
inbound query applied per the source's condition. -/
theorem preFetch_generic_target (req : InboundRequest) (ctxIp : String)
    (oreq : OutboundRequest)
    (h : preFetch req ctxIp = .toFetch .generic oreq) :
    ∃ tus t, genericTargetString (genericRawTarget req.url.pathname) = some tus ∧
      parseURL tus = some t ∧ oreq.url = genericApplySearch tus req.url.search t := by
  unfold preFetch at h
  dsimp only at h
  split at h
  · simp at h
  · split at h
    · split at h
      · simp at h
      · split at h
        · simp at h
        · split at h
          · injection h with h1 h2
            subst h2
            exact ⟨_, _, by assumption, by assumption, rfl⟩
          · simp at h
    · split at h
      · simp at h
      · split at h
        · simp at h
        · split at h
          · simp at h
          · simp at h

/-- On the prefix path, the inbound query always overwrites the computed
target's query. -/
theorem preFetch_prefixed_search (req : InboundRequest) (ctxIp : String)
    (pfx : String) (oreq : OutboundRequest)
    (h : preFetch req ctxIp = .toFetch (.prefixed pfx) oreq) :
    oreq.url.search = req.url.search := by
  unfold preFetch at h
  dsimp only at h
  split at h
  · simp at h
  · split at h
    · split at h
      · simp at h
      · split at h
        · simp at h
        · split at h
          · simp at h
          · simp at h
    · split at h
      · simp at h
      · split at h
        · simp at h
        · split at h
          · injection h with h1 h2
            subst h2
            rfl
          · simp at h
/-- C3: query-string handling is asymmetric. On the generic path the
inbound query is applied to the resolved target exactly when the inbound
query is non-empty and the extracted target string contains no `?`
(otherwise the target's own query stands); every generic fetch target is of
that shape. On the prefix path the fetch target's query is always the
inbound query. -/
theorem C3_query_asymmetry :
    (∀ (tus s : String) (t : URL), (genericApplySearch tus s t).search =
      if (s != "" && !jsIncludesChar tus '?') = true then s else t.search) ∧
    (∀ (req : InboundRequest) (ctxIp : String) (oreq : OutboundRequest),
      preFetch req ctxIp = .toFetch .generic oreq →
      ∃ tus t, genericTargetString (genericRawTarget req.url.pathname) = some tus ∧
        parseURL tus = some t ∧ oreq.url = genericApplySearch tus req.url.search t) ∧
    (∀ (req : InboundRequest) (ctxIp : String) (pfx : String) (oreq : OutboundRequest),
      preFetch req ctxIp = .toFetch (.prefixed pfx) oreq →
      oreq.url.search = req.url.search) :=
  ⟨genericApplySearch_search,
   preFetch_generic_target,
   preFetch_prefixed_search⟩

/-- Witness for C3: a prefix-routed request with a query, whose fetch
target carries exactly the inbound query. -/
theorem C3_query_asymmetry_witness :
    ((⟨⟨"https", "store.steampowered.com", "/app/42", "?q=1", ""⟩,
        "GET",
        [("Host", "store.steampowered.com"), ("X-Forwarded-For", ""),
         ("X-Forwarded-Host", "p.example"), ("X-Forwarded-Proto", "https"),
         ("referer", "https://store.steampowered.com/")]⟩ : OutboundRequest)).url.search =
      ("?q=1" : String) :=
  C3_query_asymmetry.2.2
    ⟨"GET", ⟨"https", "p.example", "/steam/app/42", "?q=1", ""⟩, []⟩ "" "/steam"
    ⟨⟨"https", "store.steampowered.com", "/app/42", "?q=1", ""⟩,
      "GET",
      [("Host", "store.steampowered.com"), ("X-Forwarded-For", ""),
       ("X-Forwarded-Host", "p.example"), ("X-Forwarded-Proto", "https"),
       ("referer", "https://store.steampowered.com/")]⟩
    (by decide)

/-- C1: the allow-list gate. (i) Every fetch the handler issues targets an
allow-listed host; (ii)/(iii) when the generic or prefix target host is
outside the allow-list the handler responds 403 before any fetch; (iv) a
3xx upstream response whose resolved `Location` host is outside the
allow-list is replaced on both paths by a 403 response that carries no
`Location` header, so no redirect towards a non-allow-listed upstream is
ever returned. -/
theorem C1_allowlist_enforced :
    (∀ (req : InboundRequest) (ctxIp : String) (pt : PathType) (oreq : OutboundRequest),
      preFetch req ctxIp = .toFetch pt oreq →
      ALLOWED_DOMAINS.contains oreq.url.host = true) ∧
    (∀ (req : InboundRequest) (ctxIp : String) (tus : String) (t : URL),
      req.method ≠ "OPTIONS" →
      jsStartsWith req.url.pathname "/proxy/" = true →
      genericTargetString (genericRawTarget req.url.pathname) = some tus →
      parseURL tus = some t →
      ALLOWED_DOMAINS.contains t.host = false →
      preFetch req ctxIp = .respond (plain403 (generic403Body t.host)) ∧
      (plain403 (generic403Body t.host)).status = 403) ∧
    (∀ (req : InboundRequest) (ctxIp : String) (pfx base : String) (t : URL),
      req.method ≠ "OPTIONS" →
      jsStartsWith req.url.pathname "/proxy/" = false →
      findRoute req.url.pathname = some (pfx, base) →
      parseURL (prefixTargetString base req.url.pathname pfx) = some t →
      ALLOWED_DOMAINS.contains t.host = false →
      preFetch req ctxIp = .respond (plain403 (prefix403Body t.host)) ∧
      (plain403 (prefix403Body t.host)).status = 403) ∧
    (∀ (origin pfx : String) (target : URL) (u : UpstreamResponse) (loc : String) (r : URL),
      300 ≤ u.status → u.status < 400 →
      hget u.headers "location" = some loc →
      resolveURL loc target = some r →
      ALLOWED_DOMAINS.contains r.host = false →
      (postFetchPrefix origin pfx target u).status = 403 ∧
      hget (postFetchPrefix origin pfx target u).headers "location" = none ∧
      (postFetchGeneric origin target u).status = 403 ∧
      hget (postFetchGeneric origin target u).headers "location" = none) := by
  refine ⟨preFetch_toFetch_allowed, ?_, ?_, ?_⟩
  · intro req ctxIp tus t hopt hpath htus hparse hallow
    exact ⟨preFetch_generic_forbidden req ctxIp tus t hopt hpath htus hparse hallow, rfl⟩
  · intro req ctxIp pfx base t hopt hpath hroute hparse hallow
    exact ⟨preFetch_prefixed_forbidden req ctxIp pfx base t hopt hpath hroute hparse hallow, rfl⟩
  · intro origin pfx target u loc r h1 h2 hloc hres hallow
    rw [postFetchPrefix_3xx_forbidden origin pfx target u loc r h1 h2 hloc hres hallow,
        postFetchGeneric_3xx_forbidden origin target u loc r h1 h2 hloc hres hallow]
    exact ⟨rfl, rfl, rfl, rfl⟩

/-- Witness for C1: a generic-path request towards a non-allow-listed host
is refused with the 403 before any fetch. -/
theorem C1_allowlist_enforced_witness :
    preFetch ⟨"GET", ⟨"https", "p.example", "/proxy/evil.com/x", "", ""⟩, []⟩ "" =
      .respond (plain403 (generic403Body "evil.com")) ∧
    (plain403 (generic403Body "evil.com")).status = 403 :=
  C1_allowlist_enforced.2.1
    ⟨"GET", ⟨"https", "p.example", "/proxy/evil.com/x", "", ""⟩, []⟩ ""
    "https://evil.com/x" ⟨"https", "evil.com", "/x", "", ""⟩
    (by decide) (by decide) (by decide) (by decide) (by decide)
/-- A successful case-insensitive literal match extends along appends. -/
theorem matchCI_append_some : ∀ (pat v w con rest : List Char),
    matchCI pat v = some (con, rest) → matchCI pat (v ++ w) = some (con, rest ++ w)
  | [], v, w, con, rest, h => by
    simp only [matchCI, Option.some.injEq, Prod.mk.injEq] at h
    obtain ⟨h1, h2⟩ := h
    subst h1
    subst h2
    simp [matchCI]
  | _ :: _, [], _, _, _, h => by simp [matchCI] at h
  | p :: ps, c :: cs, w, con, rest, h => by
    simp only [matchCI] at h
    by_cases he : eqCI p c = true
    · rw [if_pos he] at h
      cases hm : matchCI ps cs with
      | none => rw [hm] at h; simp at h
      | some pr =>
        obtain ⟨pr1, pr2⟩ := pr
        rw [hm] at h
        simp only [Option.map_some'] at h
        injection h with h'
        rw [Prod.mk.injEq] at h'
        obtain ⟨h1, h2⟩ := h'
        subst h1
        subst h2
        show matchCI (p :: ps) (c :: (cs ++ w)) = _
        simp only [matchCI, if_pos he, matchCI_append_some ps cs w pr1 pr2 hm,
          Option.map_some']
    · rw [if_neg he] at h
      cases h

/-- A failing case-insensitive literal match whose pattern cannot end with
a double quote still fails after appending one. -/
theorem matchCI_none_append_q : ∀ (pat v : List Char),
    (∀ pc ∈ pat, eqCI pc quotD = false) → matchCI pat v = none →
    matchCI pat (v ++ [quotD]) = none
  | [], _, _, h => by simp [matchCI] at h
  | p :: ps, [], hpat, _ => by
    simp [matchCI, hpat p (by simp)]
  | p :: ps, c :: cs, hpat, h => by
    simp only [matchCI] at h
    show matchCI (p :: ps) (c :: (cs ++ [quotD])) = none
    simp only [matchCI]
    by_cases he : eqCI p c = true
    · rw [if_pos he] at h ⊢
      cases hm : matchCI ps cs with
      | some pr => rw [hm] at h; simp at h
      | none =>
        rw [matchCI_none_append_q ps cs (fun pc hm2 => hpat pc (by simp [hm2])) hm]
        rfl
    · rw [if_neg he]

/-- A failing `https?://` match still fails after appending a double
quote. -/
theorem matchHttpCI_none_append_q (v : List Char) (h : matchHttpCI v = none) :
    matchHttpCI (v ++ [quotD]) = none := by
  unfold matchHttpCI at h ⊢
  cases hm : matchCI "http".data v with
  | none =>
    rw [matchCI_none_append_q _ _ (by decide) hm]
    rfl
  | some pr =>
    obtain ⟨con, r2⟩ := pr
    rw [hm] at h
    rw [matchCI_append_some _ _ [quotD] _ _ hm]
    simp only [Option.bind_some] at h ⊢
    cases r2 with
    | nil => rfl
    | cons c r2' =>
      simp only [Option.some_bind, List.cons_append] at h ⊢
      by_cases he : eqCI c 's' = true
      · rw [if_pos he] at h ⊢
        cases hm2 : matchCI "://".data r2' with
        | some r4 => rw [hm2] at h; simp at h
        | none =>
          rw [matchCI_none_append_q _ _ (by decide) hm2]
          rw [hm2] at h
          simp only [Option.map_eq_none'] at h ⊢
          have := matchCI_none_append_q "://".data (c :: r2') (by decide) h
          rw [show (c :: r2') ++ [quotD] = c :: (r2' ++ [quotD]) from rfl] at this
          exact this
      · rw [if_neg he] at h ⊢
        simp only [Option.map_eq_none'] at h ⊢
        have := matchCI_none_append_q "://".data (c :: r2') (by decide) h
        rw [show (c :: r2') ++ [quotD] = c :: (r2' ++ [quotD]) from rfl] at this
        exact this

/-- A failing prefix test whose pattern cannot contain a double quote still
fails after appending one. -/
theorem isPrefixOf_false_append_q : ∀ (pat v : List Char),
    (∀ pc ∈ pat, (pc == quotD) = false) → pat.isPrefixOf v = false →
    pat.isPrefixOf (v ++ [quotD]) = false
  | [], v, _, h => by simp [List.isPrefixOf] at h
  | p :: ps, [], hpat, _ => by
    simp [List.isPrefixOf, hpat p (by simp)]
  | p :: ps, c :: cs, hpat, h => by
    simp only [List.isPrefixOf, Bool.and_eq_false_iff] at h
    show List.isPrefixOf (p :: ps) (c :: (cs ++ [quotD])) = false
    simp only [List.isPrefixOf, Bool.and_eq_false_iff]
    rcases h with h | h
    · exact Or.inl h
    · by_cases he : (p == c) = true
      · exact Or.inr
          (isPrefixOf_false_append_q ps cs (fun pc hm => hpat pc (by simp [hm])) h)
      · exact Or.inl (by simpa using he)

/-- The bare-relative lookahead still fails after the closing quote is
appended to the value. -/
theorem laBare_append_q (v : List Char) (h : laBare v = false) :
    laBare (v ++ [quotD]) = false := by
  unfold laBare at h ⊢
  simp only [Bool.or_eq_false_iff] at h ⊢
  obtain ⟨⟨hhttp, hslash2⟩, hslash⟩ := h
  refine ⟨⟨?_, ?_⟩, ?_⟩
  · have hnone : matchHttpCI v = none := by
      cases hm : matchHttpCI v with
      | none => rfl
      | some x => rw [hm] at hhttp; simp at hhttp
    rw [matchHttpCI_none_append_q v hnone]
    rfl
  · exact isPrefixOf_false_append_q _ _ (by decide) hslash2
  · exact isPrefixOf_false_append_q _ _ (by decide) hslash

/-- The spans of the bare-relative value against its closing quote. -/
theorem takeWhile_value (v : List Char) (hq : ∀ c ∈ v, isQuote c = false) :
    (v ++ [quotD]).takeWhile (fun c => !isQuote c) = v ∧
    (v ++ [quotD]).dropWhile (fun c => !isQuote c) = [quotD] := by
  constructor
  · rw [List.takeWhile_append_of_pos (fun a ha => by simp [hq a ha])]
    rw [show List.takeWhile (fun c => !isQuote c) [quotD] = [] from rfl]
    exact List.append_nil v
  · rw [List.dropWhile_append_of_pos (fun a ha => by simp [hq a ha])]
    rfl

/-- The bare-relative pass matches an isolated attribute whose value is
neither absolute nor root-relative, and emits the doubled-slash
replacement of the source template. -/
theorem tryBareAttr_success (o p d attrC v : List Char)
    (halt : tryAlts altAttrsB (attrC ++ '=' :: quotD :: (v ++ [quotD])) =
            some (attrC, '=' :: quotD :: (v ++ [quotD])))
    (hv : v ≠ []) (hq : ∀ c ∈ v, isQuote c = false) (hla : laBare v = false) :
    tryBareAttr o p d (attrC ++ '=' :: quotD :: (v ++ [quotD])) =
      some (attrC ++ '=' :: quotD :: (o ++ p ++ '/' :: d ++ v ++ [quotD]),
            consumed (attrC ++ '=' :: quotD :: (v ++ [quotD])) []) := by
  unfold tryBareAttr
  rw [halt]
  simp only
  rw [if_pos (show isQuote quotD = true from rfl)]
  rw [if_neg (show ¬laBare (v ++ [quotD]) = true from fun hc => by
    rw [laBare_append_q v hla] at hc
    cases hc)]
  obtain ⟨htake, hdrop⟩ := takeWhile_value v hq
  rw [htake, hdrop]
  simp only
  rw [if_neg hv]

/-- Running the global scanner over exactly one isolated bare-relative
attribute yields exactly the rewritten attribute. -/
theorem bare_attr_gsub (o p d attrC v : List Char) (hne : attrC ≠ [])
    (halt : tryAlts altAttrsB (attrC ++ '=' :: quotD :: (v ++ [quotD])) =
            some (attrC, '=' :: quotD :: (v ++ [quotD])))
    (hv : v ≠ []) (hq : ∀ c ∈ v, isQuote c = false) (hla : laBare v = false) :
    gsubAux (tryBareAttr o p d) 0 (attrC ++ '=' :: quotD :: (v ++ [quotD])) =
      attrC ++ '=' :: quotD :: (o ++ p ++ '/' :: d ++ v ++ [quotD]) := by
  have hf := tryBareAttr_success o p d attrC v halt hv hq hla
  cases attrC with
  | nil => exact absurd rfl hne
  | cons a at' =>
    rw [List.cons_append] at hf ⊢
    have hk : consumed (a :: (at' ++ '=' :: quotD :: (v ++ [quotD]))) [] =
        (at' ++ '=' :: quotD :: (v ++ [quotD])).length := by
      unfold consumed
      rw [lenTR_eq, lenTR_eq]
      simp [List.length_cons]
    rw [hk] at hf
    rw [gsubAux]
    simp only [hf]
    rw [gsubAux_skip_all, List.append_nil]

/-- String-level form of `bare_attr_gsub` for one attribute. -/
theorem bare_attr_rewrite_str (origin pfx dirBase attrLit : String) (v : List Char)
    (hne : attrLit.data ≠ [])
    (halt : tryAlts altAttrsB (attrLit.data ++ '=' :: quotD :: (v ++ [quotD])) =
            some (attrLit.data, '=' :: quotD :: (v ++ [quotD])))
    (hv : v ≠ []) (hq : ∀ c ∈ v, isQuote c = false) (hla : laBare v = false) :
    gsub (tryBareAttr origin.data pfx.data dirBase.data)
        (attrLit ++ "=\"" ++ (⟨v⟩ : String) ++ "\"") =
      attrLit ++ "=\"" ++ origin ++ pfx ++ "/" ++ dirBase ++ (⟨v⟩ : String) ++ "\"" := by
  apply strExt
  have key := bare_attr_gsub origin.data pfx.data dirBase.data attrLit.data v hne halt hv hq hla
  calc (gsub (tryBareAttr origin.data pfx.data dirBase.data)
          (attrLit ++ "=\"" ++ (⟨v⟩ : String) ++ "\"")).data
      = gsubAux (tryBareAttr origin.data pfx.data dirBase.data) 0
          ((attrLit ++ "=\"" ++ (⟨v⟩ : String) ++ "\"").data) := rfl
    _ = gsubAux (tryBareAttr origin.data pfx.data dirBase.data) 0
          (attrLit.data ++ '=' :: quotD :: (v ++ [quotD])) := by
        congr 1
        simp only [String.data_append, List.append_assoc]
        rfl
    _ = attrLit.data ++ '=' :: quotD ::
          (origin.data ++ pfx.data ++ '/' :: dirBase.data ++ v ++ [quotD]) := key
    _ = (attrLit ++ "=\"" ++ origin ++ pfx ++ "/" ++ dirBase ++
          (⟨v⟩ : String) ++ "\"").data := by
        simp only [String.data_append, List.append_assoc]
        rfl

/-- C7 (amended): the bare-relative attribute pass (source lines 315-318)
rewrites an isolated attribute of `href|src|action|data-src|data-href`
whose double-quoted value is non-empty, quote-free and neither absolute
(`https?://`, `//`) nor root-relative (`/`) to
`origin ++ prefix ++ "/" ++ directory ++ value` — with the template's
literal slash before the directory (which itself starts with `/`), so a
doubled slash, unlike the claim's
`origin ++ prefix ++ directory ++ value`. -/
theorem C7_amended_bare_rewrite (origin pfx dirBase attr : String) (v : List Char)
    (hattr : attr ∈ (["href", "src", "action", "data-src", "data-href"] : List String))
    (hv : v ≠ []) (hq : ∀ c ∈ v, isQuote c = false) (hla : laBare v = false) :
    gsub (tryBareAttr origin.data pfx.data dirBase.data)
        (attr ++ "=\"" ++ (⟨v⟩ : String) ++ "\"") =
      attr ++ "=\"" ++ origin ++ pfx ++ "/" ++ dirBase ++ (⟨v⟩ : String) ++ "\"" := by
  fin_cases hattr <;>
    exact bare_attr_rewrite_str _ _ _ _ v (by decide) (by rfl) hv hq hla

/-- Witness for C7 (amended), at `src="x.png"` with directory `/a/`. -/
theorem C7_amended_bare_rewrite_witness :
    gsub (tryBareAttr ("https://p.example" : String).data ("/steam" : String).data
        ("/a/" : String).data)
        ("src" ++ "=\"" ++ (⟨("x.png" : String).data⟩ : String) ++ "\"") =
      "src" ++ "=\"" ++ "https://p.example" ++ "/steam" ++ "/" ++ "/a/" ++
        (⟨("x.png" : String).data⟩ : String) ++ "\"" :=
  C7_amended_bare_rewrite "https://p.example" "/steam" "/a/" "src" ("x.png" : String).data
    (by decide) (by decide) (by decide) (by decide)

set_option maxRecDepth 1000000 in
/-- C7 counterexample: the full HTML pipeline at a concrete body. The
claim's formula (`origin ++ prefix ++ directory ++ value`) predicts
`.../steam/a/x.png`; the code produces `.../steam//a/x.png`, and the two
are different strings. -/
theorem C7_double_slash_counterexample :
    htmlRewrite "https://p.example" "/steam" "store.steampowered.com" "/a/"
        "<img src=\"x.png\"></body>" =
      "<img src=\"https://p.example/steam//a/x.png\">" ++
        fixScript "https://p.example" "/steam" ++ "</body>" ∧
    ("https://p.example" ++ "/steam" ++ "/" ++ "/a/" ++ "x.png" ≠
      "https://p.example" ++ "/steam" ++ "/a/" ++ "x.png") := by
  constructor
  · exact beqStr_eq (by decide)
  · decide

set_option maxRecDepth 400000 in
/-- C8 counterexample: the HTML rewrite pipeline is not idempotent on its
own output. On the body `<a href="` (one unclosed quoted attribute) the
first run leaves the body unchanged and appends the patch script; on the
second run the bare-attribute pass matches from that open quote into the
appended script (closing at a quote character inside the script), so the
patch script appended on the first run IS altered: the second run's output
differs from body ++ script ++ script, and indeed starts with the
rewritten `<a href="https://p.example/steam//a/` while the first run's
output does not. -/
theorem C8_script_corruption_counterexample :
    htmlRewrite wOrigin wPfx wDom wDir c8Seed = c8Seed ++ fixScript wOrigin wPfx ∧
    htmlRewrite wOrigin wPfx wDom wDir (c8Seed ++ fixScript wOrigin wPfx) ≠
      c8Seed ++ fixScript wOrigin wPfx ++ fixScript wOrigin wPfx ∧
    jsStartsWith (htmlRewrite wOrigin wPfx wDom wDir (c8Seed ++ fixScript wOrigin wPfx))
      "<a href=\"https://p.example/steam//a/" = true ∧
    jsStartsWith (c8Seed ++ fixScript wOrigin wPfx)
      "<a href=\"https://p.example/steam//a/" = false :=
  ⟨beqStr_eq (by decide), beqStr_ne (by decide), by decide, by decide⟩

set_option maxRecDepth 400000 in
/-- C8 (amended): on a body whose embedded URLs are already proxy-rooted
and whose attribute quotes are balanced, a second run of the pipeline
changes no URL and keeps the first run's patch script verbatim — but the
pipeline is still not idempotent even there: the second run unconditionally
appends another copy of the patch script. -/
theorem C8_amended_stability :
    htmlRewrite wOrigin wPfx wDom wDir c8Good = c8Good ++ fixScript wOrigin wPfx ∧
    htmlRewrite wOrigin wPfx wDom wDir (c8Good ++ fixScript wOrigin wPfx) =
      c8Good ++ fixScript wOrigin wPfx ++ fixScript wOrigin wPfx :=
  ⟨beqStr_eq (by decide), beqStr_eq (by decide)⟩

/-! ## C9 machinery: parser totality on configured routes, CORS invariants -/

/-- `takeWhile` keeps a list all of whose characters satisfy the predicate. -/
theorem takeWhile_all (p : Char → Bool) : ∀ l : List Char, (∀ c ∈ l, p c = true) →
    l.takeWhile p = l
  | [], _ => rfl
  | c :: t, h => by
    have hc := h c (List.mem_cons_self c t)
    simp [List.takeWhile_cons, hc,
      takeWhile_all p t fun d hd => h d (List.mem_cons_of_mem c hd)]

/-- `dropWhile` drops a list all of whose characters satisfy the predicate. -/
theorem dropWhile_all (p : Char → Bool) : ∀ l : List Char, (∀ c ∈ l, p c = true) →
    l.dropWhile p = []
  | [], _ => rfl
  | c :: t, h => by
    have hc := h c (List.mem_cons_self c t)
    simp [List.dropWhile_cons, hc,
      dropWhile_all p t fun d hd => h d (List.mem_cons_of_mem c hd)]

/-- A list without `'@'` does not contain `'@'`. -/
theorem contains_at_false : ∀ l : List Char, (∀ c ∈ l, ('@' == c) = false) →
    l.contains '@' = false
  | [], _ => rfl
  | c :: t, h => by
    have hc := h c (List.mem_cons_self c t)
    have ht := contains_at_false t fun d hd => h d (List.mem_cons_of_mem c hd)
    rw [List.contains_cons, hc, ht]
    rfl

/-- `stripUserinfo` is the identity on an `@`-free authority. -/
theorem stripUserinfo_id (auth : List Char) (h : auth.contains '@' = false) :
    stripUserinfo auth = auth := by
  unfold stripUserinfo
  rw [h]
  rfl

/-- Totality of the URL parser on `https://` plus a plain host followed by
an empty or slash-headed remainder: such a string always parses. -/
theorem parseURL_https_isSome (s : String) (host rem : List Char)
    (hs : s.data = ("https://" : String).data ++ (host ++ rem))
    (hh : host ≠ [])
    (hend : ∀ c ∈ host, (!endsAuthority c) = true)
    (hat : ∀ c ∈ host, ('@' == c) = false)
    (hrem : rem = [] ∨ ∃ r, rem = '/' :: r) :
    (parseURL s).isSome = true := by
  have hs' : s = ⟨("https://" : String).data ++ (host ++ rem)⟩ := strExt hs
  subst hs'
  have key : parseURL ⟨("https://" : String).data ++ (host ++ rem)⟩ =
      (if stripUserinfo ((host ++ rem).takeWhile fun c => !endsAuthority c) = [] then none
       else some ⟨"https",
         lowerStr ⟨stripUserinfo ((host ++ rem).takeWhile fun c => !endsAuthority c)⟩,
         normPath (splitPQH ((host ++ rem).dropWhile fun c => !endsAuthority c)).1,
         (splitPQH ((host ++ rem).dropWhile fun c => !endsAuthority c)).2.1,
         (splitPQH ((host ++ rem).dropWhile fun c => !endsAuthority c)).2.2⟩) := rfl
  rcases hrem with rfl | ⟨r, rfl⟩
  · have h1 : ((host ++ ([] : List Char)).takeWhile fun c => !endsAuthority c) = host := by
      rw [List.append_nil]
      exact takeWhile_all _ host hend
    have h2 : ((host ++ ([] : List Char)).dropWhile fun c => !endsAuthority c) = [] := by
      rw [List.append_nil]
      exact dropWhile_all _ host hend
    rw [key, h1, h2, stripUserinfo_id host (contains_at_false host hat), if_neg hh]
    rfl
  · have h1 : ((host ++ '/' :: r).takeWhile fun c => !endsAuthority c) = host := by
      rw [List.takeWhile_append_of_pos fun a ha => by simp [hend a ha]]
      rw [show List.takeWhile (fun c => !endsAuthority c) ('/' :: r) = [] from rfl,
        List.append_nil]
    have h2 : ((host ++ '/' :: r).dropWhile fun c => !endsAuthority c) = '/' :: r := by
      rw [List.dropWhile_append_of_pos fun a ha => by simp [hend a ha]]
      rfl
    rw [key, h1, h2, stripUserinfo_id host (contains_at_false host hat), if_neg hh]
    rfl

/-- A found route is a configured pair whose prefix matches the path. -/
theorem findRoute_inv {path pfx base : String}
    (h : findRoute path = some (pfx, base)) :
    (pfx, base) ∈ PROXY_CONFIG ∧ jsMatches path pfx = true := by
  unfold findRoute at h
  cases hfind : sortedKeys.find? fun p => jsMatches path p with
  | none => rw [hfind] at h; cases h
  | some p =>
    rw [hfind] at h
    simp only [Option.some_bind] at h
    cases hlook : lookupConfig p with
    | none => rw [hlook] at h; cases h
    | some b =>
      rw [hlook] at h
      simp only [Option.map_some'] at h
      injection h with h'
      injection h' with hp hb
      subst hp
      subst hb
      constructor
      · unfold lookupConfig at hlook
        cases hf2 : PROXY_CONFIG.find? fun q => q.1 == p with
        | none => rw [hf2] at hlook; cases hlook
        | some q =>
          rw [hf2] at hlook
          simp only [Option.map_some'] at hlook
          injection hlook with h2
          have hmem := List.mem_of_find?_eq_some hf2
          have hq1 := List.find?_some hf2
          rw [beq_iff_eq] at hq1
          cases q with
          | mk q1 q2 =>
            dsimp only at hq1 h2
            subst hq1
            subst h2
            exact hmem
      · exact List.find?_some hfind

/-- For every configured route and matching path the prefix-path target
string parses: the `new URL` call outside the `try` (source line 215)
cannot throw. -/
theorem prefixTarget_parses (path pfx base : String)
    (hmem : (pfx, base) ∈ PROXY_CONFIG) (hm : jsMatches path pfx = true) :
    (parseURL (prefixTargetString base path pfx)).isSome = true := by
  have hrem : (jsDrop path pfx.length).data = [] ∨
      ∃ r, (jsDrop path pfx.length).data = '/' :: r := by
    simp only [jsMatches, Bool.or_eq_true, beq_iff_eq, jsStartsWith,
      List.isPrefixOf_iff_prefix] at hm
    rcases hm with rfl | ⟨t, ht⟩
    · left
      show List.drop path.length path.data = []
      rw [show path.length = path.data.length from rfl]
      exact List.drop_length path.data
    · right
      refine ⟨t, ?_⟩
      have hpd : path.data = pfx.data ++ ('/' :: t) := by
        rw [← ht, String.data_append, List.append_assoc]
        rfl
      show path.data.drop pfx.length = '/' :: t
      rw [hpd, show pfx.length = pfx.data.length from rfl]
      exact List.drop_left _ _
  simp only [PROXY_CONFIG, List.mem_cons, List.mem_singleton, Prod.mk.injEq,
    List.not_mem_nil, or_false] at hmem
  rcases hmem with ⟨rfl, rfl⟩ | ⟨rfl, rfl⟩ | ⟨rfl, rfl⟩ | ⟨rfl, rfl⟩ | ⟨rfl, rfl⟩ | ⟨rfl, rfl⟩
  · exact parseURL_https_isSome _ ("store.steampowered.com" : String).data
      (jsDrop path ("/steam" : String).length).data rfl (by decide) (by decide) (by decide) hrem
  · exact parseURL_https_isSome _ ("api.steamcmd.net" : String).data
      (jsDrop path ("/steamcmd" : String).length).data rfl (by decide) (by decide) (by decide)
      hrem
  · exact parseURL_https_isSome _ ("cdn.tailwindcss.com" : String).data
      (jsDrop path ("/tailwindcss" : String).length).data rfl (by decide) (by decide) (by decide)
      hrem
  · exact parseURL_https_isSome _ ("mediafire.com" : String).data
      (jsDrop path ("/mediafire" : String).length).data rfl (by decide) (by decide) (by decide)
      hrem
  · exact parseURL_https_isSome _ ("m.bsddji.cn" : String).data
      (("/ssone/0f6daf12a8d5af2552055bb8a01dd9e8" : String).data ++
        (jsDrop path ("/vpn" : String).length).data)
      rfl (by decide) (by decide) (by decide)
      (Or.inr ⟨("ssone/0f6daf12a8d5af2552055bb8a01dd9e8" : String).data ++
        (jsDrop path ("/vpn" : String).length).data, rfl⟩)
  · exact parseURL_https_isSome _ ("steam.ddxnb.cn" : String).data
      (jsDrop path ("/steamd" : String).length).data rfl (by decide) (by decide) (by decide)
      hrem

/-- `preFetch` never reaches the uncaught-throw outcome. -/
theorem preFetch_no_crash (req : InboundRequest) (ctxIp : String) :
    preFetch req ctxIp ≠ .crash := by
  intro h
  unfold preFetch at h
  dsimp only at h
  split at h
  · simp at h
  · split at h
    · split at h
      · simp at h
      · split at h
        · simp at h
        · split at h
          · simp at h
          · simp at h
    · split at h
      · simp at h
      · rename_i pfx base hroute
        split at h
        · rename_i hparse
          have hinv := findRoute_inv hroute
          have hsome := prefixTarget_parses _ _ _ hinv.1 hinv.2
          rw [hparse] at hsome
          cases hsome
        · split at h
          · simp at h
          · simp at h

/-- Every response produced before the fetch carries the permissive CORS
origin header. -/
theorem preFetch_respond_acao (req : InboundRequest) (ctxIp : String)
    (r : SimpleResponse) (h : preFetch req ctxIp = .respond r) :
    hget r.headers "Access-Control-Allow-Origin" = some "*" := by
  unfold preFetch at h
  dsimp only at h
  split at h
  · injection h with h'
    subst h'
    rfl
  · split at h
    · split at h
      · injection h with h'
        subst h'
        rfl
      · split at h
        · injection h with h'
          subst h'
          rfl
        · split at h
          · simp at h
          · injection h with h'
            subst h'
            rfl
    · split at h
      · simp at h
      · split at h
        · simp at h
        · split at h
          · simp at h
          · injection h with h'
            subst h'
            rfl

/-- The generic post-fetch response always carries the permissive CORS
origin header. -/
theorem acao_postFetchGeneric (origin : String) (target : URL) (u : UpstreamResponse) :
    hget (postFetchGeneric origin target u).headers "Access-Control-Allow-Origin" =
      some "*" := by
  unfold postFetchGeneric
  dsimp only
  split
  · split
    · rfl
    · split
      · exact (hget_hset_ne _ _ _ _ (by decide)).trans (hget_corsify_acao _)
      · rfl
  · exact hget_corsify_acao _

/-- The prefix post-fetch response always carries the permissive CORS
origin header. -/
theorem acao_postFetchPrefix (origin pfx : String) (target : URL) (u : UpstreamResponse) :
    hget (postFetchPrefix origin pfx target u).headers "Access-Control-Allow-Origin" =
      some "*" := by
  unfold postFetchPrefix
  dsimp only
  have hhs : ∀ b : Bool, hget
      (if b = true then
        hset (hset (hset (corsify u.headers) "Cache-Control"
          "no-store, no-cache, must-revalidate, proxy-revalidate") "Pragma" "no-cache")
          "Expires" "0"
       else hset (corsify u.headers) "Cache-Control" "public, max-age=86400")
      "Access-Control-Allow-Origin" = some "*" := by
    intro b
    cases b
    · rw [if_neg (by simp)]
      exact (hget_hset_ne _ _ _ _ (by decide)).trans (hget_corsify_acao _)
    · rw [if_pos rfl]
      exact (hget_hset_ne _ _ _ _ (by decide)).trans
        ((hget_hset_ne _ _ _ _ (by decide)).trans
          ((hget_hset_ne _ _ _ _ (by decide)).trans (hget_corsify_acao _)))
  split
  · split
    · rfl
    · split
      · exact (hget_hset_ne _ _ _ _ (by decide)).trans (hhs _)
      · rfl
  · exact hhs _

/-- A malformed `Referer` survives header construction unchanged. -/
theorem buildProxyHeaders_referer_malformed (hs : HdrList) (target : URL)
    (ctxIp ph ps rv : String)
    (href : hget hs "referer" = some rv) (hbad : parseURL rv = none) :
    hget (buildProxyHeaders hs target ctxIp ph ps) "referer" = some rv := by
  unfold buildProxyHeaders
  dsimp only
  simp only [href]
  rw [hget_hset_eq _ _ _ _ rfl]
  unfold rewriteRefererValue
  simp only [hbad]

/-- C9: failures are contained. The handler never reaches the
uncaught-throw outcome on any input (the prefix-path `new URL` outside the
`try` always succeeds for the configured routes); every response it
returns — the 403s and 502s included — carries
`Access-Control-Allow-Origin: *`; a fetch failure becomes the respective
path's 502 response; and a malformed inbound `Referer` is passed through
to the upstream request unchanged, the request still proceeding. -/
theorem C9_error_containment (req : InboundRequest) (ctxIp : String) :
    (∀ fo, handler req ctxIp fo ≠ .crash) ∧
    (∀ fo r, handler req ctxIp fo = .respond r →
      hget r.headers "Access-Control-Allow-Origin" = some "*") ∧
    (∀ pt oreq msg, preFetch req ctxIp = .toFetch pt oreq →
      handler req ctxIp (.failure msg) =
        .respond (match pt with | .generic => generic502 msg | .prefixed _ => prefix502)) ∧
    (∀ rv pt oreq, hget req.headers "referer" = some rv → parseURL rv = none →
      preFetch req ctxIp = .toFetch pt oreq →
      hget oreq.headers "referer" = some rv) := by
  refine ⟨?_, ?_, ?_, ?_⟩
  · intro fo h
    unfold handler at h
    cases hpre : preFetch req ctxIp with
    | respond r => simp [hpre] at h
    | noMatch => simp [hpre] at h
    | crash => exact preFetch_no_crash req ctxIp hpre
    | toFetch pt oreq =>
      cases fo with
      | failure msg => cases pt <;> simp [hpre] at h
      | success u => cases pt <;> simp [hpre] at h
  · intro fo r h
    unfold handler at h
    cases hpre : preFetch req ctxIp with
    | respond r0 =>
      simp only [hpre] at h
      injection h with h'
      subst h'
      exact preFetch_respond_acao req ctxIp _ hpre
    | noMatch => simp [hpre] at h
    | crash => simp [hpre] at h
    | toFetch pt oreq =>
      cases fo with
      | failure msg =>
        cases pt with
        | generic =>
          simp only [hpre] at h
          injection h with h'
          subst h'
          rfl
        | prefixed pfx =>
          simp only [hpre] at h
          injection h with h'
          subst h'
          rfl
      | success u =>
        cases pt with
        | generic =>
          simp only [hpre] at h
          injection h with h'
          subst h'
          exact acao_postFetchGeneric _ _ _
        | prefixed pfx =>
          simp only [hpre] at h
          injection h with h'
          subst h'
          exact acao_postFetchPrefix _ _ _ _
  · intro pt oreq msg hpre
    unfold handler
    simp only [hpre]
    cases pt <;> rfl
  · intro rv pt oreq href hbad hpre
    unfold preFetch at hpre
    dsimp only at hpre
    split at hpre
    · simp at hpre
    · split at hpre
      · split at hpre
        · simp at hpre
        · split at hpre
          · simp at hpre
          · split at hpre
            · injection hpre with h1 h2
              subst h2
              exact buildProxyHeaders_referer_malformed _ _ _ _ _ _ href hbad
            · simp at hpre
      · split at hpre
        · simp at hpre
        · split at hpre
          · simp at hpre
          · split at hpre
            · injection hpre with h1 h2
              subst h2
              exact buildProxyHeaders_referer_malformed _ _ _ _ _ _ href hbad
            · simp at hpre

/-- Witness for C9 at a concrete prefix-routed request with a malformed
`Referer` and a failing fetch. -/
theorem C9_error_containment_witness :
    handler ⟨"GET", ⟨"https", "p.example", "/steam/a", "", ""⟩, [("referer", "x")]⟩
        "2.3.4.5" (.failure "boom") ≠ .crash ∧
    hget prefix502.headers "Access-Control-Allow-Origin" = some "*" ∧
    handler ⟨"GET", ⟨"https", "p.example", "/steam/a", "", ""⟩, [("referer", "x")]⟩
        "2.3.4.5" (.failure "boom") = .respond prefix502 ∧
    hget [("Host", "store.steampowered.com"), ("X-Forwarded-For", "2.3.4.5"),
        ("X-Forwarded-Host", "p.example"), ("X-Forwarded-Proto", "https"),
        ("referer", "x")] "referer" = some "x" := by
  refine ⟨(C9_error_containment _ _).1 _, ?_, ?_, ?_⟩
  · exact (C9_error_containment
      ⟨"GET", ⟨"https", "p.example", "/steam/a", "", ""⟩, [("referer", "x")]⟩
      "2.3.4.5").2.1 (.failure "boom") prefix502 (by decide)
  · exact (C9_error_containment
      ⟨"GET", ⟨"https", "p.example", "/steam/a", "", ""⟩, [("referer", "x")]⟩
      "2.3.4.5").2.2.1 (.prefixed "/steam")
      ⟨⟨"https", "store.steampowered.com", "/a", "", ""⟩, "GET",
        [("Host", "store.steampowered.com"), ("X-Forwarded-For", "2.3.4.5"),
         ("X-Forwarded-Host", "p.example"), ("X-Forwarded-Proto", "https"),
         ("referer", "x")]⟩ "boom" (by decide)
  · exact (C9_error_containment
      ⟨"GET", ⟨"https", "p.example", "/steam/a", "", ""⟩, [("referer", "x")]⟩
      "2.3.4.5").2.2.2 "x" (.prefixed "/steam")
      ⟨⟨"https", "store.steampowered.com", "/a", "", ""⟩, "GET",
        [("Host", "store.steampowered.com"), ("X-Forwarded-For", "2.3.4.5"),
         ("X-Forwarded-Host", "p.example"), ("X-Forwarded-Proto", "https"),
         ("referer", "x")]⟩ (by decide) (by decide) (by decide)
end NetlifyProxy
